import Mathlib

/-! # Marathon-Backend: the progress analytics engine

A shallow embedding of `server/src/models/Progress.js` (the Mongoose schema
`progressSchema` with its statics `getWeeklySummary` and `getTrainingStreak`)
and of the handlers of `server/src/routes/progressRoutes.js`, followed by the
properties established about them.

Modelling conventions.

* The collection is a list of documents in insertion order, together with a
  counter from which fresh `_id`s are drawn.
* JavaScript numbers are rationals: division is exact, and there is no NaN or
  infinity. A point in time (a `Date`) is an integer number of milliseconds since
  the epoch, and calendar days are taken in a zone with a fixed offset (UTC),
  so that every day lasts `24 * 60 * 60 * 1000` ms.
* A request body is a JSON object. Each field is either absent (`undefined`,
  here `none`) or carries a value of the JSON type the schema path declares (a
  number for `Number` paths, a string for `String` paths, ...). Keys that are
  no schema path are dropped by Mongoose's strict mode and are not represented,
  and neither are `null` values.
* The body of an update may also hold MongoDB update operators, since the
  handler hands it to `findOneAndUpdate` whole. `PutBody` represents the
  operator `$inc` on the `Number` paths next to the plain fields (`UpdateBody`);
  `routerPut` is the handler on a body of plain fields, `routerPutBody` the
  handler on a body with `$inc`. The other operators are not represented.
* The clock (`Date.now()`, `new Date()`) is an explicit argument `now`.
* The authentication middleware `verifyToken` is represented by its result,
  the caller identity `uid` (`req.user.uid`).
-/

namespace Marathon

/-! ## Documents and the collection -/

/-- A stored document of the model `Progress` (schema `progressSchema`, with
`timestamps: true`). Optional paths that are not set are `none`. -/
structure Progress where
  id : Nat
  userId : String
  date : Int
  type : String
  distance : ℚ
  duration : ℚ
  pace : Option ℚ
  notes : Option String
  weather : Option String
  difficulty : Option ℚ
  mood : Option String
  isRestDay : Bool
  createdAt : Int
  updatedAt : Int
deriving DecidableEq

/-- The collection: its documents in insertion order and the next fresh id. -/
structure Store where
  docs : List Progress
  nextId : Nat
deriving DecidableEq

/-- The collection before any request. -/
def Store.empty : Store := ⟨[], 0⟩

/-! ## JavaScript operators on request values -/

/-- Truthiness of a numeric field: `undefined` and `0` are falsy. -/
def truthyNum : Option ℚ → Bool
  | none => false
  | some q => q != 0

/-- Truthiness of a string field: `undefined` and `''` are falsy. -/
def truthyStr : Option String → Bool
  | none => false
  | some s => s != ""

/-- The comparison `x > 0` of a numeric field: `undefined > 0` is `false`. -/
def gtZero : Option ℚ → Bool
  | none => false
  | some q => decide (0 < q)

/-- The expression `x || d` for a numeric field `x` and a number `d`. -/
def orNum (x : Option ℚ) (d : ℚ) : ℚ :=
  match x with
  | some q => if q != 0 then q else d
  | none => d

/-- The expression `x || false` for a boolean field `x`. -/
def orFalse : Option Bool → Bool
  | some b => b
  | none => false

/-- The `length` of a JavaScript string: its number of UTF-16 code units. -/
def jsLength (s : String) : Nat :=
  (s.toList.map (fun c => if c.toNat < 65536 then 1 else 2)).sum

/-! ## The schema's validators -/

/-- The `enum` of path `type`. -/
def typeEnum : List String := ["run", "walk", "cross_training", "rest"]

/-- The `enum` of path `weather`. -/
def weatherEnum : List String := ["sunny", "cloudy", "rainy", "snowy", "hot", "cold"]

/-- The `enum` of path `mood`. -/
def moodEnum : List String := ["excellent", "good", "okay", "tough", "difficult"]

/-- Validators of a `String` path with `required: true` (a non-empty string). -/
def requiredStr : Option String → Bool
  | none => false
  | some s => s != ""

/-- Validator `enum`: it is skipped on `undefined`. -/
def enumOk (vocabulary : List String) : Option String → Bool
  | none => true
  | some s => vocabulary.contains s

/-- Validator `min`: it is skipped on `undefined`. -/
def minOk (bound : ℚ) : Option ℚ → Bool
  | none => true
  | some q => decide (bound ≤ q)

/-- Validator `max`: it is skipped on `undefined`. -/
def maxOk (bound : ℚ) : Option ℚ → Bool
  | none => true
  | some q => decide (q ≤ bound)

/-- Validator `maxlength`: it is skipped on `undefined`. -/
def maxlengthOk (bound : Nat) : Option String → Bool
  | none => true
  | some s => decide (jsLength s ≤ bound)

/-- The validators `progressSchema` attaches to path `type` (set value). -/
def typeOk (v : Option String) : Bool := requiredStr v && enumOk typeEnum v

/-- The validators of path `distance`, and of path `duration` (`min: 0`). -/
def nonNegOk (v : Option ℚ) : Bool := minOk 0 v

/-- The validators of path `notes` (`maxlength: 500`). -/
def notesOk (v : Option String) : Bool := maxlengthOk 500 v

/-- The validators of path `weather`. -/
def weatherOk (v : Option String) : Bool := enumOk weatherEnum v

/-- The validators of path `difficulty` (`min: 1`, `max: 10`). -/
def difficultyOk (v : Option ℚ) : Bool := minOk 1 v && maxOk 10 v

/-- The validators of path `mood`. -/
def moodOk (v : Option String) : Bool := enumOk moodEnum v

/-! ## Requests and responses -/

/-- The fields `router.post('/')` reads from `req.body`. -/
structure CreateBody where
  type : Option String
  distance : Option ℚ
  duration : Option ℚ
  pace : Option ℚ
  notes : Option String
  weather : Option String
  difficulty : Option ℚ
  mood : Option String
  isRestDay : Option Bool
deriving DecidableEq

/-- The plain fields of the body of `router.put('/:id')`: the body is handed to
`findOneAndUpdate` whole, so every schema path may occur in it. -/
structure UpdateBody where
  userId : Option String
  date : Option Int
  type : Option String
  distance : Option ℚ
  duration : Option ℚ
  pace : Option ℚ
  notes : Option String
  weather : Option String
  difficulty : Option ℚ
  mood : Option String
  isRestDay : Option Bool
deriving DecidableEq

/-- An update body with no field. -/
def UpdateBody.none : UpdateBody :=
  ⟨.none, .none, .none, .none, .none, .none, .none, .none, .none, .none, .none⟩

/-- The answers of the create, update and delete handlers. -/
inductive Response where
  /-- Status 201 with the created document. -/
  | created (progress : Progress)
  /-- Status 200 of `PUT` with the updated document. -/
  | updated (progress : Progress)
  /-- Status 200 of `DELETE`. -/
  | deleted
  /-- Status 404, `Progress entry not found`. -/
  | notFound
  /-- Status 500, the `catch` branch of a handler. -/
  | serverError
deriving DecidableEq

/-! ## `router.post('/')` -/

/-- The pace of a new entry: `let pace = req.body.pace;
if (!pace && distance > 0 && duration > 0) pace = duration / distance`. -/
def createPace (body : CreateBody) : Option ℚ :=
  match body.distance, body.duration with
  | some distance, some duration =>
    if !truthyNum body.pace && gtZero (some distance) && gtZero (some duration) then
      some (duration / distance)
    else body.pace
  | _, _ => body.pace

/-- Validation run by `progress.save()` on the document built by the handler:
`distance`, `duration` are `distance || 0`, `duration || 0`; `userId` and
`date` are always set by the handler and the schema default. -/
def createValid (uid : String) (body : CreateBody) : Bool :=
  requiredStr (some uid) && typeOk body.type
    && nonNegOk (some (orNum body.distance 0)) && nonNegOk (some (orNum body.duration 0))
    && notesOk body.notes && weatherOk body.weather && difficultyOk body.difficulty
    && moodOk body.mood

/-- The document `new Progress({...})` of the handler, with the fresh id, the
default `date: Date.now` and the timestamps. -/
def newProgress (st : Store) (uid : String) (now : Int) (body : CreateBody) : Progress :=
  { id := st.nextId
    userId := uid
    date := now
    type := body.type.getD ""
    distance := orNum body.distance 0
    duration := orNum body.duration 0
    pace := createPace body
    notes := body.notes
    weather := body.weather
    difficulty := body.difficulty
    mood := body.mood
    isRestDay := orFalse body.isRestDay
    createdAt := now
    updatedAt := now }

/-- Handler `router.post('/')` for the authenticated caller `uid`. -/
def routerPost (st : Store) (uid : String) (now : Int) (body : CreateBody) :
    Store × Response :=
  if createValid uid body then
    let progress := newProgress st uid now body
    (⟨st.docs ++ [progress], st.nextId + 1⟩, Response.created progress)
  else (st, Response.serverError)

/-! ## `router.put('/:id')` and `router.delete('/:id')` -/

/-- Query `Progress.findById(id)`. -/
def findById (st : Store) (id : Nat) : Option Progress :=
  st.docs.find? (fun p => p.id == id)

/-- Query `findOne({ _id: id, userId: uid })`. -/
def findOwned (st : Store) (id : Nat) (uid : String) : Option Progress :=
  st.docs.find? (fun p => p.id == id && p.userId == uid)

/-- The block `// Recalculate pace if distance or duration changed`: the update
document after it. -/
def recalcPace (st : Store) (id : Nat) (updateData : UpdateBody) : UpdateBody :=
  if truthyNum updateData.distance || truthyNum updateData.duration then
    match findById st id with
    | some existing =>
      let distance := orNum updateData.distance existing.distance
      let duration := orNum updateData.duration existing.duration
      if gtZero (some distance) && gtZero (some duration) then
        { updateData with pace := some (duration / distance) }
      else updateData
    | none => updateData
  else updateData

/-- Update validators (`runValidators: true`): the validators of every path
the update sets; a path the update does not mention is not validated. -/
def updateValid (u : UpdateBody) : Bool :=
  (u.userId.isNone || requiredStr u.userId)
    && (u.type.isNone || typeOk u.type)
    && nonNegOk u.distance && nonNegOk u.duration
    && notesOk u.notes && weatherOk u.weather && difficultyOk u.difficulty && moodOk u.mood

/-- The document after `$set`ting the fields of the update; `updatedAt` is
refreshed, `_id` and `createdAt` are kept. -/
def applyUpdate (p : Progress) (u : UpdateBody) (now : Int) : Progress :=
  { id := p.id
    userId := u.userId.getD p.userId
    date := u.date.getD p.date
    type := u.type.getD p.type
    distance := u.distance.getD p.distance
    duration := u.duration.getD p.duration
    pace := u.pace.orElse (fun _ => p.pace)
    notes := u.notes.orElse (fun _ => p.notes)
    weather := u.weather.orElse (fun _ => p.weather)
    difficulty := u.difficulty.orElse (fun _ => p.difficulty)
    mood := u.mood.orElse (fun _ => p.mood)
    isRestDay := u.isRestDay.getD p.isRestDay
    createdAt := p.createdAt
    updatedAt := now }

/-- Replace the first document matching `{ _id: id, userId: uid }`. -/
def replaceOwned (id : Nat) (uid : String) (q : Progress) : List Progress → List Progress
  | [] => []
  | p :: ps =>
    if p.id == id && p.userId == uid then q :: ps else p :: replaceOwned id uid q ps

/-- Remove the first document matching `{ _id: id, userId: uid }`. -/
def removeOwned (id : Nat) (uid : String) : List Progress → List Progress
  | [] => []
  | p :: ps => if p.id == id && p.userId == uid then ps else p :: removeOwned id uid ps

/-- Handler `router.put('/:id')` for the authenticated caller `uid`, on a body
of plain fields. The update validators run before the query is sent, so an
invalid update throws (status 500) whether or not a document matches. -/
def routerPut (st : Store) (uid : String) (now : Int) (id : Nat) (body : UpdateBody) :
    Store × Response :=
  let updateData := recalcPace st id body
  if updateValid updateData then
    match findOwned st id uid with
    | some p =>
      let progress := applyUpdate p updateData now
      (⟨replaceOwned id uid progress st.docs, st.nextId⟩, Response.updated progress)
    | none => (st, Response.notFound)
  else (st, Response.serverError)

/-- The operator `$inc` of an update body: the amount to add to each `Number`
path it names. -/
structure IncOps where
  distance : Option ℚ
  duration : Option ℚ
  pace : Option ℚ
  difficulty : Option ℚ
deriving DecidableEq

/-- An operator `$inc` that names no path. -/
def IncOps.none : IncOps := ⟨.none, .none, .none, .none⟩

/-- A body of `router.put('/:id')`: plain fields, which `findOneAndUpdate`
takes as `$set`, and the operator `$inc`. -/
structure PutBody where
  fields : UpdateBody
  inc : IncOps
deriving DecidableEq

/-- The store rejects an update that names a path both in `$set` and in `$inc`. -/
def incConflict (u : UpdateBody) (inc : IncOps) : Bool :=
  (u.distance.isSome && inc.distance.isSome) || (u.duration.isSome && inc.duration.isSome)
    || (u.pace.isSome && inc.pace.isSome) || (u.difficulty.isSome && inc.difficulty.isSome)

/-- The value of a `Number` path after `$inc`; a path that is not set starts
from `0`. -/
def incField (amount : Option ℚ) (value : Option ℚ) : Option ℚ :=
  match amount with
  | some a => some (value.getD 0 + a)
  | none => value

/-- The document after the operator `$inc`. -/
def applyInc (p : Progress) (inc : IncOps) : Progress :=
  { p with
    distance := (incField inc.distance (some p.distance)).getD p.distance
    duration := (incField inc.duration (some p.duration)).getD p.duration
    pace := incField inc.pace p.pace
    difficulty := incField inc.difficulty p.difficulty }

/-- Handler `router.put('/:id')` for the authenticated caller `uid`, on a body
that may hold `$inc`. The recalculation block reads and writes the plain
fields only; the update validators (`runValidators: true`) check the paths
that are `$set` and do not check `$inc`. -/
def routerPutBody (st : Store) (uid : String) (now : Int) (id : Nat) (body : PutBody) :
    Store × Response :=
  let updateData := recalcPace st id body.fields
  if updateValid updateData && !incConflict updateData body.inc then
    match findOwned st id uid with
    | some p =>
      let progress := applyInc (applyUpdate p updateData now) body.inc
      (⟨replaceOwned id uid progress st.docs, st.nextId⟩, Response.updated progress)
    | none => (st, Response.notFound)
  else (st, Response.serverError)

/-- Handler `router.delete('/:id')` for the authenticated caller `uid`. -/
def routerDelete (st : Store) (uid : String) (id : Nat) : Store × Response :=
  match findOwned st id uid with
  | some _ => (⟨removeOwned id uid st.docs, st.nextId⟩, Response.deleted)
  | none => (st, Response.notFound)

/-! ## `router.get('/')`: filtered, paginated listing -/

/-- The parsed query string of `router.get('/')`; `page` and `limit` default
to `1` and `30` when absent. -/
structure ListQuery where
  page : Option Int
  limit : Option Int
  type : Option String
  startDate : Option Int
  endDate : Option Int
deriving DecidableEq

/-- The filter `query` built by the handler: the caller's entries, of the given
`type` if one is given, dated within the given bounds (each optional). -/
def queryMatches (uid : String) (q : ListQuery) (p : Progress) : Bool :=
  p.userId == uid
    && (if truthyStr q.type then q.type == some p.type else true)
    && (match q.startDate with
        | some s => decide (s ≤ p.date)
        | none => true)
    && (match q.endDate with
        | some e => decide (p.date ≤ e)
        | none => true)

/-- Cursor option `.sort({ date: -1 })`: latest first, ties in collection order. -/
def sortByDateDesc (l : List Progress) : List Progress :=
  l.insertionSort (fun a b => b.date ≤ a.date)

/-- The documents `Progress.find(query).sort({ date: -1 })` yields. -/
def findSorted (st : Store) (uid : String) (q : ListQuery) : List Progress :=
  sortByDateDesc (st.docs.filter (queryMatches uid q))

/-- Cursor option `.limit(n)`: `0` is no limit, a negative `n` counts as `-n`. -/
def applyLimit (n : Int) (l : List Progress) : List Progress :=
  if n = 0 then l else l.take n.natAbs

/-- The answers of the listing handler. -/
inductive ListResponse where
  /-- Status 200: the page and `pagination: { current, pages, total }`;
  `pages` is `none` when `total / limit` is no finite number. -/
  | ok (progress : List Progress) (current : Int) (pages : Option Int) (total : Nat)
  /-- Status 500, the `catch` branch (the store rejects a negative `skip`). -/
  | serverError
deriving DecidableEq

/-- Handler `router.get('/')` for the authenticated caller `uid`. -/
def routerGet (st : Store) (uid : String) (q : ListQuery) : ListResponse :=
  let page := q.page.getD 1
  let limit := q.limit.getD 30
  let skip := (page - 1) * limit
  if skip < 0 then ListResponse.serverError
  else
    let progress := applyLimit limit ((findSorted st uid q).drop skip.toNat)
    let total := (st.docs.filter (queryMatches uid q)).length
    let pages : Option Int :=
      if limit = 0 then none else some ⌈((total : ℚ) / (limit : ℚ))⌉
    ListResponse.ok progress page pages total

/-! ## `progressSchema.statics.getWeeklySummary` -/

/-- The record of the `$group` stage of `getWeeklySummary`; an average is
`none` (`null`) when no document of the group carries the averaged field. -/
structure WeeklySummary where
  totalDistance : ℚ
  totalDuration : ℚ
  totalRuns : Nat
  totalRestDays : Nat
  averagePace : Option ℚ
  averageDifficulty : Option ℚ
deriving DecidableEq

/-- Stage `$match: { userId, date: { $gte: startDate, $lte: endDate } }`. -/
def matchRange (docs : List Progress) (userId : String) (startDate endDate : Int) :
    List Progress :=
  docs.filter (fun p => p.userId == userId && decide (startDate ≤ p.date)
    && decide (p.date ≤ endDate))

/-- Accumulator `$avg`: the mean of the values present, `null` if there is none. -/
def avg (values : List ℚ) : Option ℚ :=
  if values.isEmpty then none else some (values.sum / values.length)

/-- Stage `$group` with `_id: null` of `getWeeklySummary`: a single group over
all input documents, and no group at all when there is no input document. -/
def groupSummary (matched : List Progress) : List WeeklySummary :=
  if matched.isEmpty then []
  else
    [{ totalDistance := (matched.map (fun p => p.distance)).sum
       totalDuration := (matched.map (fun p => p.duration)).sum
       totalRuns := (matched.map (fun p => if p.type == "run" then 1 else 0)).sum
       totalRestDays := (matched.map (fun p => if p.isRestDay then 1 else 0)).sum
       averagePace := avg (matched.filterMap (fun p => p.pace))
       averageDifficulty := avg (matched.filterMap (fun p => p.difficulty)) }]

/-- The literal returned by `getWeeklySummary` when the pipeline yields nothing. -/
def zeroSummary : WeeklySummary :=
  { totalDistance := 0
    totalDuration := 0
    totalRuns := 0
    totalRestDays := 0
    averagePace := some 0
    averageDifficulty := some 0 }

/-- Static `getWeeklySummary(userId, startDate, endDate)`: `summary[0] || {...}`. -/
def getWeeklySummary (st : Store) (userId : String) (startDate endDate : Int) :
    WeeklySummary :=
  (groupSummary (matchRange st.docs userId startDate endDate)).head?.getD zeroSummary

/-! ## `progressSchema.statics.getTrainingStreak` -/

/-- Milliseconds of a calendar day. -/
def msPerDay : Int := 24 * 60 * 60 * 1000

/-- A date after `setHours(0, 0, 0, 0)`: the start of its calendar day. -/
def startOfDay (t : Int) : Int := t - t % msPerDay

/-- The test `activities.some(...)` of the loop body: some activity falls on
the calendar day that starts at `currentDate`. -/
def hasActivity (activities : List Progress) (currentDate : Int) : Bool :=
  activities.any (fun activity => startOfDay activity.date == currentDate)

/-- The loop `for (let i = 0; i < 30; i++)` with `remaining = 30 - i` iterations
left: a day with an activity increments `streak` and steps `currentDate` back by
one day, a day without one leaves the loop (`break`). -/
def streakLoop (activities : List Progress) : Nat → Int → Nat → Nat
  | 0, _, streak => streak
  | remaining + 1, currentDate, streak =>
    if hasActivity activities currentDate then
      streakLoop activities remaining (currentDate - msPerDay) (streak + 1)
    else streak

/-- Static `getTrainingStreak(userId)`, with `today = new Date()` passed in. -/
def getTrainingStreak (st : Store) (userId : String) (today : Int) : Nat :=
  let thirtyDaysAgo := today - 30 * 24 * 60 * 60 * 1000
  let activities := sortByDateDesc (st.docs.filter (fun p =>
    p.userId == userId && decide (thirtyDaysAgo ≤ p.date) && p.isRestDay == false))
  streakLoop activities 30 (startOfDay today) 0

/-! ## `router.get('/stats')`: period statistics -/

/-- The record of the first `$group` stage of the handler (`totalStats`). -/
structure TotalStats where
  totalDistance : ℚ
  totalDuration : ℚ
  totalActivities : Nat
  averagePace : Option ℚ
  averageDifficulty : Option ℚ
deriving DecidableEq

/-- Stage `$group` with `_id: null` of `totalStats`: one group over all input
documents, and no group when there is no input document. -/
def groupTotalStats (matched : List Progress) : List TotalStats :=
  if matched.isEmpty then []
  else
    [{ totalDistance := (matched.map (fun p => p.distance)).sum
       totalDuration := (matched.map (fun p => p.duration)).sum
       totalActivities := (matched.map (fun _ => 1)).sum
       averagePace := avg (matched.filterMap (fun p => p.pace))
       averageDifficulty := avg (matched.filterMap (fun p => p.difficulty)) }]

/-- The literal the handler answers when `totalStats[0]` is missing. -/
def zeroTotalStats : TotalStats :=
  { totalDistance := 0
    totalDuration := 0
    totalActivities := 0
    averagePace := some 0
    averageDifficulty := some 0 }

/-- A group of the type breakdown: `_id` is the `type` of its documents. -/
structure TypeBucket where
  id : String
  count : Nat
  totalDistance : ℚ
  totalDuration : ℚ
deriving DecidableEq

/-- Stage `$group` with `_id: '$type'`: one group per type present (the stage
fixes no order of the groups; they are listed by the types' occurrence). -/
def groupByType (matched : List Progress) : List TypeBucket :=
  ((matched.map (fun p => p.type)).dedup).map (fun type =>
    { id := type
      count := ((matched.filter (fun p => p.type == type)).map (fun _ => 1)).sum
      totalDistance := ((matched.filter (fun p => p.type == type)).map (fun p => p.distance)).sum
      totalDuration :=
        ((matched.filter (fun p => p.type == type)).map (fun p => p.duration)).sum })

/-- The number of the calendar day of a date: whole days since 1970-01-01. -/
def epochDay (t : Int) : Int := t / msPerDay

/-- The calendar year of a day number, by the era decomposition of the
proleptic Gregorian calendar (eras of 400 years that start on 1 March). -/
def yearOfDay (day : Int) : Int :=
  let z := day + 719468
  let era := z / 146097
  let doe := z - era * 146097
  let yoe := (doe - doe / 1460 + doe / 36524 - doe / 146096) / 365
  let doy := doe - (365 * yoe + yoe / 4 - yoe / 100)
  if doy < 306 then yoe + era * 400 else yoe + era * 400 + 1

/-- The day number of 1 January of a year. -/
def dayOfNewYear (year : Int) : Int :=
  let y := year - 1
  let era := y / 400
  let yoe := y - era * 400
  era * 146097 + (yoe * 365 + yoe / 4 - yoe / 100 + 306) - 719468

/-- The position of a day in its year, `0` for 1 January. -/
def dayOfYear (day : Int) : Int := day - dayOfNewYear (yearOfDay day)

/-- The day of the week of a day number, `0` for Sunday (day `0` is a Thursday). -/
def weekday (day : Int) : Int := (day + 4) % 7

/-- Operator `$year`: the calendar year of a date. -/
def mongoYear (t : Int) : Int := yearOfDay (epochDay t)

/-- Operator `$week`: the week of the year of a date, from `0` to `53`; weeks
begin on Sundays, week `1` begins with the first Sunday of the year and the
days before it are in week `0`. -/
def mongoWeek (t : Int) : Int :=
  (dayOfYear (epochDay t) + 7 - weekday (epochDay t)) / 7

/-- The `_id` of a group of the weekly progress: `{ year, week }` of a date. -/
def weekId (t : Int) : Int × Int := (mongoYear t, mongoWeek t)

/-- A group of the weekly progress. -/
structure WeekBucket where
  id : Int × Int
  totalDistance : ℚ
  totalDuration : ℚ
  activityCount : Nat
deriving DecidableEq

/-- Stage `$group` with `_id: { year: { $year: '$date' }, week: { $week: '$date' } }`:
one group per `_id` present. -/
def groupByWeek (matched : List Progress) : List WeekBucket :=
  ((matched.map (fun p => weekId p.date)).dedup).map (fun key =>
    { id := key
      totalDistance :=
        ((matched.filter (fun p => weekId p.date == key)).map (fun p => p.distance)).sum
      totalDuration :=
        ((matched.filter (fun p => weekId p.date == key)).map (fun p => p.duration)).sum
      activityCount := ((matched.filter (fun p => weekId p.date == key)).map (fun _ => 1)).sum })

/-- The order of stage `$sort: { '_id.year': 1, '_id.week': 1 }`. -/
def weekIdLe (a b : Int × Int) : Prop := a.1 < b.1 ∨ (a.1 = b.1 ∧ a.2 ≤ b.2)

instance weekIdLe_decidable : DecidableRel weekIdLe := fun a b => by
  unfold weekIdLe
  exact inferInstance

/-- Stage `$sort` of the weekly progress. -/
def sortWeeks (groups : List WeekBucket) : List WeekBucket :=
  groups.insertionSort (fun a b => weekIdLe a.id b.id)

/-- The answer of `router.get('/stats')` (status 200). -/
structure StatsResponse where
  totalStats : TotalStats
  typeBreakdown : List TypeBucket
  weeklyProgress : List WeekBucket
deriving DecidableEq

/-- Handler `router.get('/stats')` for the authenticated caller `uid`, with
`endDate = new Date()` passed in as `now` and `period` the parsed query
parameter (30 days when absent). -/
def routerGetStats (st : Store) (uid : String) (now : Int) (period : Option Int) :
    StatsResponse :=
  let endDate := now
  let startDate := endDate - period.getD 30 * 24 * 60 * 60 * 1000
  let matched := matchRange st.docs uid startDate endDate
  { totalStats := (groupTotalStats matched).head?.getD zeroTotalStats
    typeBreakdown := groupByType matched
    weeklyProgress := sortWeeks (groupByWeek matched) }

/-! ## Reachable collections -/

/-- The collections reachable from the empty one by requests to the create,
update and delete handlers (a failing request leaves the collection as it is). -/
inductive Reachable : Store → Prop where
  | empty : Reachable Store.empty
  | post (st : Store) (uid : String) (now : Int) (body : CreateBody) :
      Reachable st → Reachable (routerPost st uid now body).1
  | put (st : Store) (uid : String) (now : Int) (id : Nat) (body : PutBody) :
      Reachable st → Reachable (routerPutBody st uid now id body).1
  | delete (st : Store) (uid : String) (id : Nat) :
      Reachable st → Reachable (routerDelete st uid id).1

/-! ## Sample data -/

/-- A create request for a 10 km run of 50 minutes, no pace supplied. -/
def runBody : CreateBody :=
  { type := some "run", distance := some 10, duration := some 50, pace := none, notes := none,
    weather := none, difficulty := none, mood := none, isRestDay := none }

/-- The entry `runBody` creates for owner `A` at time `0` in the empty collection. -/
def entryA : Progress :=
  { id := 0, userId := "A", date := 0, type := "run", distance := 10, duration := 50,
    pace := some 5, notes := none, weather := none, difficulty := none, mood := none,
    isRestDay := false, createdAt := 0, updatedAt := 0 }

/-- The collection holding `entryA` only. -/
def storeA : Store := ⟨[entryA], 1⟩

/-! ## Vocabulary of the streak claim -/

/-- The calendar day of a date, as a number of days since the epoch. -/
def dayOf (t : Int) : Int := t / msPerDay

/-- The owner has at least one entry with `isRestDay = false` dated on `day`. -/
def trainedOn (st : Store) (userId : String) (day : Int) : Prop :=
  ∃ p ∈ st.docs, p.userId = userId ∧ p.isRestDay = false ∧ dayOf p.date = day

/-- A non-rest run of owner `U1` with the given id and date. -/
def runOn (id : Nat) (date : Int) : Progress :=
  { entryA with id := id, userId := "U1", date := date, createdAt := date, updatedAt := date }

/-- Owner `U1` with runs on days 10, 9 and 7 (none on day 8). -/
def streakStore : Store :=
  ⟨[runOn 0 (7 * msPerDay + 3), runOn 1 (9 * msPerDay + 7), runOn 2 (10 * msPerDay + 100)], 3⟩

/-! ## Vocabulary of the aggregation claims -/

/-- The owner's entries dated within `[startDate, endDate]`, bounds included. -/
def entriesInRange (st : Store) (userId : String) (startDate endDate : Int) : List Progress :=
  st.docs.filter (fun p => decide (p.userId = userId ∧ startDate ≤ p.date ∧ p.date ≤ endDate))

/-! ## Vocabulary of the pagination claim -/

/-- The entries on page number `page` of a listing: the `progress` of the
answer to the query `q` with `page` set (nothing when the request fails). -/
def pageOf (st : Store) (uid : String) (q : ListQuery) (page : Nat) : List Progress :=
  match routerGet st uid { q with page := some (page : Int) } with
  | ListResponse.ok progress _ _ _ => progress
  | ListResponse.serverError => []

/-- The filter of a listing as the specification words it: the entry is owned
by `uid`; it has the type of the query if the query gives one (an empty `type`
parameter gives none); and its date lies within the bounds of the query, each
of them optional and inclusive. -/
def ListedBy (uid : String) (q : ListQuery) (p : Progress) : Prop :=
  p.userId = uid
    ∧ (∀ t ∈ q.type, t = "" ∨ p.type = t)
    ∧ (∀ s ∈ q.startDate, s ≤ p.date)
    ∧ (∀ e ∈ q.endDate, p.date ≤ e)

instance listedBy_decidable (uid : String) (q : ListQuery) (p : Progress) :
    Decidable (ListedBy uid q p) := by
  unfold ListedBy
  exact inferInstance

/-- The owner's full filtered result set, in the order of the collection. -/
def entriesListed (st : Store) (uid : String) (q : ListQuery) : List Progress :=
  st.docs.filter (fun p => decide (ListedBy uid q p))

/-! ## Vocabulary of the stored-entry invariants -/

/-- The constraints on a stored entry: non-negative distance and duration, a
difficulty (when present) in `[1, 10]`, a type, a weather and a mood (when
present) of the fixed vocabularies, and notes (when present) of length at
most 500. -/
def SchemaInvariant (p : Progress) : Prop :=
  0 ≤ p.distance ∧ 0 ≤ p.duration
    ∧ (∀ d, p.difficulty = some d → 1 ≤ d ∧ d ≤ 10)
    ∧ p.type ∈ ["run", "walk", "cross_training", "rest"]
    ∧ (∀ w, p.weather = some w → w ∈ ["sunny", "cloudy", "rainy", "snowy", "hot", "cold"])
    ∧ (∀ m, p.mood = some m → m ∈ ["excellent", "good", "okay", "tough", "difficult"])
    ∧ (∀ n, p.notes = some n → jsLength n ≤ 500)

/-- A create request one of whose fields violates a constraint: a negative
distance or duration, a difficulty outside `[1, 10]`, a type that is missing or
outside its vocabulary, a weather or mood outside its vocabulary, or notes
longer than 500. -/
def CreateViolates (b : CreateBody) : Prop :=
  (∃ d, b.distance = some d ∧ d < 0) ∨ (∃ t, b.duration = some t ∧ t < 0)
    ∨ (∃ d, b.difficulty = some d ∧ ¬ (1 ≤ d ∧ d ≤ 10))
    ∨ (∀ t, b.type = some t → t ∉ ["run", "walk", "cross_training", "rest"])
    ∨ (∃ w, b.weather = some w ∧ w ∉ ["sunny", "cloudy", "rainy", "snowy", "hot", "cold"])
    ∨ (∃ m, b.mood = some m ∧ m ∉ ["excellent", "good", "okay", "tough", "difficult"])
    ∨ (∃ n, b.notes = some n ∧ 500 < jsLength n)

/-- An update request one of whose fields violates a constraint. -/
def UpdateViolates (u : UpdateBody) : Prop :=
  (∃ d, u.distance = some d ∧ d < 0) ∨ (∃ t, u.duration = some t ∧ t < 0)
    ∨ (∃ d, u.difficulty = some d ∧ ¬ (1 ≤ d ∧ d ≤ 10))
    ∨ (∃ t, u.type = some t ∧ t ∉ ["run", "walk", "cross_training", "rest"])
    ∨ (∃ w, u.weather = some w ∧ w ∉ ["sunny", "cloudy", "rainy", "snowy", "hot", "cold"])
    ∨ (∃ m, u.mood = some m ∧ m ∉ ["excellent", "good", "okay", "tough", "difficult"])
    ∨ (∃ n, u.notes = some n ∧ 500 < jsLength n)

/-! ## Vocabulary of the update claims -/

/-- The pace an update should produce according to the pace policy as the
specification words it: the supplied pace if one is supplied; otherwise
`duration / distance` of the effective values (the supplied value, or the
existing one for a field the request does not supply) when both are strictly
positive, and the pace as it was when they are not. -/
def claimedUpdatePace (e : Progress) (u : UpdateBody) : Option ℚ :=
  match u.pace with
  | some pace => some pace
  | none =>
    if 0 < u.distance.getD e.distance ∧ 0 < u.duration.getD e.duration then
      some (u.duration.getD e.duration / u.distance.getD e.distance)
    else e.pace

/-- A 10 km run of 50 minutes of owner `A`, created with the explicit pace 4. -/
def entryPaced : Progress := { entryA with pace := some 4 }

/-- The collection holding `entryPaced` only. -/
def storePaced : Store := ⟨[entryPaced], 1⟩

/-! ## Vocabulary of the claims on averages, listing parameters and weekly trend -/

/-- A create request for a rest day: no distance, no duration, no pace. -/
def restBody : CreateBody :=
  { type := some "rest", distance := none, duration := none, pace := none, notes := none,
    weather := none, difficulty := none, mood := none, isRestDay := some true }

/-- The entry `restBody` creates for owner `A` at time `0` in the empty collection. -/
def entryRest : Progress :=
  { id := 0, userId := "A", date := 0, type := "rest", distance := 0, duration := 0,
    pace := none, notes := none, weather := none, difficulty := none, mood := none,
    isRestDay := true, createdAt := 0, updatedAt := 0 }

/-- The collection holding `entryRest` only. -/
def storeRest : Store := ⟨[entryRest], 1⟩

/-- The convention an `average` of the optional `field` over the matched
entries follows: the arithmetic mean over the entries that carry the field when
there is one; `0` when no entry matches at all; absent (`null`) when entries
match but none of them carries the field. -/
def AverageOf (matched : List Progress) (field : Progress → Option ℚ)
    (average : Option ℚ) : Prop :=
  (matched.filterMap field ≠ [] →
      average = some ((matched.filterMap field).sum / ((matched.filterMap field).length : ℚ)))
    ∧ (matched = [] → average = some 0)
    ∧ (matched ≠ [] → matched.filterMap field = [] → average = none)

/-- The Thursday of the ISO week (Monday to Sunday) a day lies in. -/
def isoThursday (day : Int) : Int := day - (day + 3) % 7 + 3

/-- The pair (ISO year, ISO week) of a date: the year of the Thursday of its
week, and the number of that Thursday among the Thursdays of the year. -/
def isoWeekId (t : Int) : Int × Int :=
  (yearOfDay (isoThursday (epochDay t)), dayOfYear (isoThursday (epochDay t)) / 7 + 1)

/-- Owner `U1` with a run on Tuesday 2024-12-31 (day 20088) and a run on
Wednesday 2025-01-01 (day 20089), two days of the same ISO week. -/
def newYearStore : Store :=
  ⟨[runOn 0 (20088 * msPerDay + 1000), runOn 1 (20089 * msPerDay + 1000)], 2⟩

/-! # Properties -/

/-! ## Sample data is reachable -/

theorem routerPost_runBody :
    routerPost Store.empty "A" 0 runBody = (storeA, Response.created entryA) := by
  norm_num [routerPost, createValid, newProgress, createPace, runBody, Store.empty, requiredStr,
    typeOk, enumOk, typeEnum, nonNegOk, minOk, orNum, notesOk, maxlengthOk, weatherOk,
    difficultyOk, moodOk, maxOk, truthyNum, gtZero, orFalse, storeA, entryA]
  decide

theorem reachable_storeA : Reachable storeA := by
  have h := Reachable.post Store.empty "A" 0 runBody Reachable.empty
  rwa [routerPost_runBody] at h

/-! ## Auxiliary facts about the update and delete handlers -/

theorem updateValid_recalcPace (st : Store) (id : Nat) (u : UpdateBody) :
    updateValid (recalcPace st id u) = updateValid u := by
  unfold recalcPace
  split
  · split
    · dsimp only
      split <;> rfl
    · rfl
  · rfl

theorem findOwned_eq_none_of_foreign (st : Store) (e : Progress) (B : String)
    (hids : (st.docs.map (fun p => p.id)).Nodup) (he : e ∈ st.docs) (hB : e.userId ≠ B) :
    findOwned st e.id B = none := by
  unfold findOwned
  rw [List.find?_eq_none]
  intro p hp hmatch
  simp only [Bool.and_eq_true, beq_iff_eq] at hmatch
  have hpe : p = e := List.inj_on_of_nodup_map hids hp he hmatch.1
  exact hB (hpe ▸ hmatch.2)

theorem findOwned_eq_none_of_absent (st : Store) (id : Nat) (uid : String)
    (h : findById st id = none) : findOwned st id uid = none := by
  unfold findOwned
  unfold findById at h
  rw [List.find?_eq_none] at h ⊢
  intro p hp hmatch
  simp only [Bool.and_eq_true] at hmatch
  exact h p hp hmatch.1

theorem routerPut_of_not_owned (st : Store) (uid : String) (now : Int) (id : Nat)
    (body : UpdateBody) (h : findOwned st id uid = none) :
    routerPut st uid now id body
      = (st, if updateValid body then Response.notFound else Response.serverError) := by
  unfold routerPut
  simp only [updateValid_recalcPace, h]
  split <;> rfl

theorem routerDelete_of_not_owned (st : Store) (uid : String) (id : Nat)
    (h : findOwned st id uid = none) : routerDelete st uid id = (st, Response.notFound) := by
  unfold routerDelete
  rw [h]

/-! ## C1: ownership isolation of update and delete -/

/-- C1, as stated, fails: owner `B` sends an update with the invalid field
`distance = -1` for the entry of owner `A`; the update validators throw and the
answer is the server error of the `catch` branch, not `NotFound`. -/
theorem C1_counterexample :
    entryA ∈ storeA.docs ∧ entryA.userId = "A" ∧ "A" ≠ "B"
      ∧ routerPut storeA "B" 1 entryA.id { UpdateBody.none with distance := some (-1) }
          = (storeA, Response.serverError)
      ∧ Response.serverError ≠ Response.notFound := by
  refine ⟨by simp [storeA], rfl, by decide, ?_, by decide⟩
  norm_num [routerPut, recalcPace, updateValid, UpdateBody.none, truthyNum, nonNegOk, minOk,
    findById, storeA, entryA, orNum, gtZero]

/-- C1 (amended): in a collection with unique ids, for distinct owners `A` and
`B` and an entry `e` of `A`, every update request of `B` for `e.id` leaves the
collection unchanged and answers `NotFound` when its fields pass the update
validators and the server error when they do not, which in both cases is the
answer given for an id that does not exist at all; every delete request of `B`
for `e.id` answers `NotFound`, as for an absent id, and leaves the collection
unchanged. So `e` is still present, as it was. -/
theorem C1_ownership_isolation (st : Store) (A B : String) (e : Progress) (now : Int)
    (body : UpdateBody) (hids : (st.docs.map (fun p => p.id)).Nodup) (he : e ∈ st.docs)
    (hA : e.userId = A) (hAB : A ≠ B) :
    (routerPut st B now e.id body).1 = st
      ∧ (updateValid body = true → (routerPut st B now e.id body).2 = Response.notFound)
      ∧ (updateValid body = false → (routerPut st B now e.id body).2 = Response.serverError)
      ∧ (∀ st2 : Store, findById st2 e.id = none →
          routerPut st2 B now e.id body = (st2, (routerPut st B now e.id body).2))
      ∧ routerDelete st B e.id = (st, Response.notFound)
      ∧ (∀ st2 : Store, findById st2 e.id = none →
          routerDelete st2 B e.id = (st2, Response.notFound))
      ∧ e ∈ (routerPut st B now e.id body).1.docs
      ∧ e ∈ (routerDelete st B e.id).1.docs := by
  have hB : e.userId ≠ B := by
    rw [hA]
    exact hAB
  have hnone := findOwned_eq_none_of_foreign st e B hids he hB
  have hput := routerPut_of_not_owned st B now e.id body hnone
  have hdel := routerDelete_of_not_owned st B e.id hnone
  refine ⟨by rw [hput], ?_, ?_, ?_, hdel, ?_, by rw [hput]; exact he, by rw [hdel]; exact he⟩
  · intro hv
    rw [hput, hv]
    rfl
  · intro hv
    rw [hput, hv]
    rfl
  · intro st2 h2
    rw [hput, routerPut_of_not_owned st2 B now e.id body (findOwned_eq_none_of_absent st2 e.id B h2)]
  · intro st2 h2
    exact routerDelete_of_not_owned st2 B e.id (findOwned_eq_none_of_absent st2 e.id B h2)

/-- C1, witness: owner `B` against the entry of owner `A` in `storeA`, with a
valid update. -/
theorem C1_ownership_isolation_witness :
    (routerPut storeA "B" 7 entryA.id { UpdateBody.none with distance := some 3 }).1 = storeA
      ∧ (routerPut storeA "B" 7 entryA.id { UpdateBody.none with distance := some 3 }).2
          = Response.notFound
      ∧ routerDelete storeA "B" entryA.id = (storeA, Response.notFound) := by
  have h := C1_ownership_isolation storeA "A" "B" entryA 7
    { UpdateBody.none with distance := some 3 } (by simp [storeA]) (by simp [storeA]) rfl
    (by decide)
  refine ⟨h.1, h.2.1 ?_, h.2.2.2.2.1⟩
  norm_num [updateValid, UpdateBody.none, nonNegOk, minOk, maxOk, notesOk, maxlengthOk,
    weatherOk, enumOk, difficultyOk, moodOk]

theorem map_id_replaceOwned (id : Nat) (uid : String) (q : Progress) (hq : q.id = id)
    (l : List Progress) :
    (replaceOwned id uid q l).map (fun p => p.id) = l.map (fun p => p.id) := by
  induction l with
  | nil => rfl
  | cons p ps ih =>
    unfold replaceOwned
    split
    · rename_i h
      simp only [Bool.and_eq_true, beq_iff_eq] at h
      simp [hq, h.1]
    · simp [ih]

theorem removeOwned_sublist (id : Nat) (uid : String) (l : List Progress) :
    (removeOwned id uid l).Sublist l := by
  induction l with
  | nil => exact List.Sublist.refl _
  | cons p ps ih =>
    unfold removeOwned
    split
    · exact List.sublist_cons_self p ps
    · exact ih.cons₂ p

theorem findOwned_some (st : Store) (id : Nat) (uid : String) (p : Progress)
    (h : findOwned st id uid = some p) : p ∈ st.docs ∧ p.id = id ∧ p.userId = uid := by
  unfold findOwned at h
  have h1 := List.find?_some h
  have h2 := List.mem_of_find?_eq_some h
  simp only [Bool.and_eq_true, beq_iff_eq] at h1
  exact ⟨h2, h1.1, h1.2⟩

/-- Ids are unique in every reachable collection, and below the id counter. -/
theorem reachable_ids (st : Store) (h : Reachable st) :
    (st.docs.map (fun p => p.id)).Nodup ∧ ∀ p ∈ st.docs, p.id < st.nextId := by
  induction h with
  | empty => simp [Store.empty]
  | post st uid now body _ ih =>
    unfold routerPost
    split
    · refine ⟨?_, ?_⟩
      · simp only [List.map_append, List.map_cons, List.map_nil]
        rw [List.nodup_append]
        refine ⟨ih.1, List.nodup_singleton _, ?_⟩
        intro a ha hb
        simp only [List.mem_singleton] at hb
        rw [List.mem_map] at ha
        obtain ⟨p, hp, rfl⟩ := ha
        have := ih.2 p hp
        simp only [newProgress] at hb
        omega
      · intro p hp
        simp only [List.mem_append, List.mem_singleton] at hp
        rcases hp with hp | rfl
        · exact Nat.lt_succ_of_lt (ih.2 p hp)
        · simp [newProgress]
    · exact ih
  | put st uid now id body _ ih =>
    unfold routerPutBody
    dsimp only
    split
    · split
      · rename_i p hp
        have hf := findOwned_some st id uid p hp
        have hid : (applyInc (applyUpdate p (recalcPace st id body.fields) now) body.inc).id
            = id := hf.2.1
        refine ⟨?_, ?_⟩
        · simp only [map_id_replaceOwned id uid _ hid]
          exact ih.1
        · intro x hx
          have hx2 : x.id ∈ (replaceOwned id uid
              (applyInc (applyUpdate p (recalcPace st id body.fields) now) body.inc)
              st.docs).map (fun p => p.id) := List.mem_map_of_mem _ hx
          rw [map_id_replaceOwned id uid _ hid, List.mem_map] at hx2
          obtain ⟨y, hy, hxy⟩ := hx2
          have := ih.2 y hy
          simp only at this ⊢
          omega
      · exact ih
    · exact ih
  | delete st uid id _ ih =>
    unfold routerDelete
    split
    · refine ⟨?_, ?_⟩
      · exact ih.1.sublist ((removeOwned_sublist id uid st.docs).map _)
      · intro p hp
        exact ih.2 p ((removeOwned_sublist id uid st.docs).subset hp)
    · exact ih

/-! ## C2, C3: pace of a created entry -/

theorem routerPost_of_valid (st : Store) (uid : String) (now : Int) (body : CreateBody)
    (hv : createValid uid body = true) :
    routerPost st uid now body
      = (⟨st.docs ++ [newProgress st uid now body], st.nextId + 1⟩,
          Response.created (newProgress st uid now body)) := by
  unfold routerPost
  rw [if_pos hv]

theorem routerPost_of_invalid (st : Store) (uid : String) (now : Int) (body : CreateBody)
    (hv : createValid uid body = false) :
    routerPost st uid now body = (st, Response.serverError) := by
  unfold routerPost
  rw [hv]
  rfl

/-- C2: a create request without `pace` that passes validation stores one new
entry; its pace is `duration / distance` when the request carries a strictly
positive distance and a strictly positive duration, and is absent when the
distance or the duration is absent or not strictly positive. -/
theorem C2_pace_derivation_on_create (st : Store) (uid : String) (now : Int)
    (body : CreateBody) (hp : body.pace = none) (hv : createValid uid body = true) :
    ∃ p : Progress,
      routerPost st uid now body = (⟨st.docs ++ [p], st.nextId + 1⟩, Response.created p)
      ∧ (∀ d t : ℚ, body.distance = some d → body.duration = some t → 0 < d → 0 < t →
          p.pace = some (t / d))
      ∧ ((¬ ∃ d t : ℚ, body.distance = some d ∧ body.duration = some t ∧ 0 < d ∧ 0 < t) →
          p.pace = none) := by
  refine ⟨newProgress st uid now body, routerPost_of_valid st uid now body hv, ?_, ?_⟩
  · intro d t hd ht hd0 ht0
    simp [newProgress, createPace, hd, ht, hp, truthyNum, gtZero, hd0, ht0]
  · intro hno
    simp only [newProgress, createPace]
    split
    · rename_i d t hd ht
      split
      · rename_i hc
        simp only [Bool.and_eq_true, gtZero, decide_eq_true_eq] at hc
        exact absurd ⟨d, t, hd, ht, hc.1.2, hc.2⟩ hno
      · exact hp
    · exact hp

/-- C2, witness: the 10 km run of 50 minutes is stored with pace 5. -/
theorem C2_pace_derivation_on_create_witness :
    ∃ p : Progress,
      routerPost Store.empty "A" 0 runBody = (⟨[p], 1⟩, Response.created p)
      ∧ p.pace = some 5 := by
  have hv : createValid "A" runBody = true := by
    norm_num [createValid, runBody, requiredStr, typeOk, enumOk, typeEnum, nonNegOk, minOk,
      orNum, notesOk, maxlengthOk, weatherOk, difficultyOk, moodOk, maxOk]
    decide
  obtain ⟨p, h1, h2, _⟩ := C2_pace_derivation_on_create Store.empty "A" 0 runBody rfl hv
  refine ⟨p, h1, ?_⟩
  rw [h2 10 50 rfl rfl (by norm_num) (by norm_num)]
  norm_num

/-- C3 fails on the code: a create request that supplies `pace = 0` with
distance 10 and duration 50 is stored with pace 5, because `!pace` holds for
`0` and the handler derives the pace as if none had been supplied. -/
theorem C3_zero_pace_is_rederived :
    ∃ p : Progress,
      routerPost Store.empty "A" 0 { runBody with pace := some 0 }
        = (⟨[p], 1⟩, Response.created p)
      ∧ p.pace = some 5 ∧ p.pace ≠ some 0 := by
  refine ⟨{ entryA with pace := some 5 }, ?_, rfl, by norm_num⟩
  norm_num [routerPost, createValid, newProgress, createPace, runBody, Store.empty, requiredStr,
    typeOk, enumOk, typeEnum, nonNegOk, minOk, orNum, notesOk, maxlengthOk, weatherOk,
    difficultyOk, moodOk, maxOk, truthyNum, gtZero, orFalse, entryA]
  decide

/-! ## C4: the training streak -/

theorem msPerDay_eq : msPerDay = 86400000 := by
  norm_num [msPerDay]

theorem startOfDay_eq (t : Int) : startOfDay t = dayOf t * msPerDay := by
  unfold startOfDay dayOf
  rw [msPerDay_eq]
  omega

theorem hasActivity_day (activities : List Progress) (day : Int) :
    hasActivity activities (day * msPerDay) = true ↔ ∃ a ∈ activities, dayOf a.date = day := by
  unfold hasActivity
  rw [List.any_eq_true]
  constructor
  · rintro ⟨a, ha, h⟩
    refine ⟨a, ha, ?_⟩
    rw [beq_iff_eq, startOfDay_eq] at h
    have hpos : msPerDay ≠ 0 := by
      rw [msPerDay_eq]
      norm_num
    exact Int.eq_of_mul_eq_mul_right hpos h
  · rintro ⟨a, ha, h⟩
    refine ⟨a, ha, ?_⟩
    rw [beq_iff_eq, startOfDay_eq, h]

theorem mem_sortByDateDesc (l : List Progress) (p : Progress) :
    p ∈ sortByDateDesc l ↔ p ∈ l :=
  (List.perm_insertionSort _ l).mem_iff

/-- The loop counts the days, walking back from `day`, up to the first one
without an activity, and at most `remaining` of them. -/
theorem streakLoop_spec (activities : List Progress) (remaining : Nat) :
    ∀ (day : Int) (streak : Nat), ∃ k : Nat,
      streakLoop activities remaining (day * msPerDay) streak = streak + k
      ∧ k ≤ remaining
      ∧ (∀ j : Nat, j < k → hasActivity activities ((day - j) * msPerDay) = true)
      ∧ (k = remaining ∨ hasActivity activities ((day - k) * msPerDay) = false) := by
  induction remaining with
  | zero =>
    intro day streak
    exact ⟨0, rfl, le_refl _, fun j hj => absurd hj (Nat.not_lt_zero j), Or.inl rfl⟩
  | succ n ih =>
    intro day streak
    unfold streakLoop
    by_cases h : hasActivity activities (day * msPerDay) = true
    · rw [if_pos h]
      have hstep : day * msPerDay - msPerDay = (day - 1) * msPerDay := by ring
      rw [hstep]
      obtain ⟨k, hk, hle, hall, hstop⟩ := ih (day - 1) (streak + 1)
      refine ⟨k + 1, by rw [hk]; ring, Nat.succ_le_succ hle, ?_, ?_⟩
      · intro j hj
        cases j with
        | zero => simpa using h
        | succ i =>
          have := hall i (Nat.lt_of_succ_lt_succ hj)
          have he : day - ((i + 1 : Nat) : Int) = day - 1 - (i : Int) := by
            push_cast
            ring
          rw [he]
          exact this
      · rcases hstop with hstop | hstop
        · exact Or.inl (by rw [hstop])
        · right
          have he : day - ((k + 1 : Nat) : Int) = day - 1 - (k : Int) := by
            push_cast
            ring
          rw [he]
          exact hstop
    · rw [if_neg h]
      refine ⟨0, rfl, Nat.zero_le _, fun j hj => absurd hj (Nat.not_lt_zero j), Or.inr ?_⟩
      simpa using h

/-- An entry dated on one of the 30 days examined lies within the query window. -/
theorem window_of_day (today date : Int) (j : Nat) (hj : j < 30)
    (h : dayOf date = dayOf today - j) : today - 30 * 24 * 60 * 60 * 1000 ≤ date := by
  unfold dayOf at h
  rw [msPerDay_eq] at h
  omega

/-- On the days examined, the fetched activities witness exactly `trainedOn`. -/
theorem hasActivity_iff_trainedOn (st : Store) (userId : String) (today : Int) (j : Nat)
    (hj : j < 30) :
    hasActivity (sortByDateDesc (st.docs.filter (fun p =>
        p.userId == userId && decide (today - 30 * 24 * 60 * 60 * 1000 ≤ p.date)
          && p.isRestDay == false))) ((dayOf today - j) * msPerDay) = true
      ↔ trainedOn st userId (dayOf today - j) := by
  rw [hasActivity_day]
  unfold trainedOn
  constructor
  · rintro ⟨a, ha, hd⟩
    rw [mem_sortByDateDesc, List.mem_filter] at ha
    simp only [Bool.and_eq_true, beq_iff_eq, decide_eq_true_eq] at ha
    exact ⟨a, ha.1, ha.2.1.1, ha.2.2, hd⟩
  · rintro ⟨a, ha, hu, hr, hd⟩
    refine ⟨a, ?_, hd⟩
    rw [mem_sortByDateDesc, List.mem_filter]
    simp only [Bool.and_eq_true, beq_iff_eq, decide_eq_true_eq]
    exact ⟨ha, ⟨hu, window_of_day today a.date j hj hd⟩, hr⟩

/-- C4: `getTrainingStreak` returns the largest `k` in `0..30` such that each of
the `k` days `referenceDay, referenceDay - 1, ..., referenceDay - (k - 1)` holds
an entry of the owner with `isRestDay = false`. In particular the result is 2
when the reference day and the day before hold one and the day before that
holds none, whatever is logged earlier, and it is 0 when the reference day
holds none. -/
theorem C4_streak_value (st : Store) (userId : String) (today : Int) :
    IsGreatest {k : Nat | k ≤ 30 ∧ ∀ j : Nat, j < k → trainedOn st userId (dayOf today - j)}
        (getTrainingStreak st userId today)
      ∧ (trainedOn st userId (dayOf today) → trainedOn st userId (dayOf today - 1) →
          ¬ trainedOn st userId (dayOf today - 2) → getTrainingStreak st userId today = 2)
      ∧ (¬ trainedOn st userId (dayOf today) → getTrainingStreak st userId today = 0) := by
  have hg : IsGreatest
      {k : Nat | k ≤ 30 ∧ ∀ j : Nat, j < k → trainedOn st userId (dayOf today - j)}
      (getTrainingStreak st userId today) := by
    unfold getTrainingStreak
    dsimp only
    rw [startOfDay_eq]
    obtain ⟨k, hk, hle, hall, hstop⟩ := streakLoop_spec (sortByDateDesc (st.docs.filter (fun p =>
        p.userId == userId && decide (today - 30 * 24 * 60 * 60 * 1000 ≤ p.date)
          && p.isRestDay == false))) 30 (dayOf today) 0
    rw [hk, Nat.zero_add]
    refine ⟨⟨hle, fun j hj => ?_⟩, ?_⟩
    · exact (hasActivity_iff_trainedOn st userId today j (lt_of_lt_of_le hj hle)).1 (hall j hj)
    · rintro m ⟨hm30, hm⟩
      rcases hstop with hstop | hstop
      · rw [hstop]
        exact hm30
      · by_contra hlt
        have hkm : k < m := Nat.lt_of_not_le hlt
        have hk30 : k < 30 := lt_of_lt_of_le hkm hm30
        have := (hasActivity_iff_trainedOn st userId today k hk30).2 (hm k hkm)
        rw [hstop] at this
        exact Bool.false_ne_true this
  refine ⟨hg, ?_, ?_⟩
  · intro h0 h1 h2
    apply le_antisymm
    · by_contra hlt
      have h3 : 2 < getTrainingStreak st userId today := Nat.lt_of_not_le hlt
      exact h2 (by simpa using hg.1.2 2 h3)
    · apply hg.2
      refine ⟨by norm_num, fun j hj => ?_⟩
      interval_cases j
      · simpa using h0
      · simpa using h1
  · intro h0
    by_contra hne
    have hpos : 0 < getTrainingStreak st userId today := Nat.pos_of_ne_zero hne
    exact h0 (by simpa using hg.1.2 0 hpos)

/-- C4, scenario: with runs on days `D`, `D - 1` and `D - 3` the streak on day
`D` is 2. -/
theorem C4_streak_value_witness :
    getTrainingStreak streakStore "U1" (10 * msPerDay + 5000) = 2 := by
  have hD : dayOf (10 * msPerDay + 5000) = 10 := by
    norm_num [dayOf, msPerDay]
  refine (C4_streak_value streakStore "U1" (10 * msPerDay + 5000)).2.1 ?_ ?_ ?_
  · rw [hD]
    exact ⟨runOn 2 (10 * msPerDay + 100), by simp [streakStore], rfl, rfl,
      by norm_num [dayOf, msPerDay, runOn]⟩
  · rw [hD]
    exact ⟨runOn 1 (9 * msPerDay + 7), by simp [streakStore], rfl, rfl,
      by norm_num [dayOf, msPerDay, runOn]⟩
  · rw [hD]
    rintro ⟨p, hp, -, -, hd⟩
    simp only [streakStore, List.mem_cons, List.mem_singleton, List.not_mem_nil, or_false] at hp
    rcases hp with rfl | rfl | rfl <;> norm_num [dayOf, msPerDay, runOn] at hd

/-! ## C5, C6: totals of the weekly summary -/

theorem matchRange_eq_entriesInRange (st : Store) (userId : String) (startDate endDate : Int) :
    matchRange st.docs userId startDate endDate = entriesInRange st userId startDate endDate := by
  unfold matchRange entriesInRange
  apply List.filter_congr
  intro p _
  rw [Bool.eq_iff_iff]
  simp only [Bool.and_eq_true, beq_iff_eq, decide_eq_true_eq]
  tauto

theorem sum_indicator_eq_countP (c : Progress → Bool) (l : List Progress) :
    (l.map (fun p => if c p then 1 else 0)).sum = l.countP c := by
  induction l with
  | nil => rfl
  | cons p ps ih =>
    rw [List.map_cons, List.sum_cons, ih, List.countP_cons]
    cases c p <;> simp [Nat.add_comm]

/-- The summary in terms of the matched entries: the group of the pipeline when
some entry matches, the all-zero literal when none does. -/
theorem getWeeklySummary_eq (st : Store) (userId : String) (startDate endDate : Int) :
    (entriesInRange st userId startDate endDate = [] →
        getWeeklySummary st userId startDate endDate = zeroSummary)
    ∧ (entriesInRange st userId startDate endDate ≠ [] →
        getWeeklySummary st userId startDate endDate =
          { totalDistance :=
              ((entriesInRange st userId startDate endDate).map (fun p => p.distance)).sum
            totalDuration :=
              ((entriesInRange st userId startDate endDate).map (fun p => p.duration)).sum
            totalRuns := ((entriesInRange st userId startDate endDate).map
              (fun p => if p.type == "run" then 1 else 0)).sum
            totalRestDays := ((entriesInRange st userId startDate endDate).map
              (fun p => if p.isRestDay then 1 else 0)).sum
            averagePace :=
              avg ((entriesInRange st userId startDate endDate).filterMap (fun p => p.pace))
            averageDifficulty :=
              avg ((entriesInRange st userId startDate endDate).filterMap
                (fun p => p.difficulty)) }) := by
  unfold getWeeklySummary groupSummary
  rw [matchRange_eq_entriesInRange]
  constructor
  · intro h
    rw [h]
    rfl
  · intro h
    rw [if_neg (by simpa [List.isEmpty_iff] using h)]
    rfl

theorem getWeeklySummary_totals (st : Store) (userId : String) (startDate endDate : Int) :
    (getWeeklySummary st userId startDate endDate).totalDistance
        = ((entriesInRange st userId startDate endDate).map (fun p => p.distance)).sum
    ∧ (getWeeklySummary st userId startDate endDate).totalDuration
        = ((entriesInRange st userId startDate endDate).map (fun p => p.duration)).sum
    ∧ (getWeeklySummary st userId startDate endDate).totalRuns
        = ((entriesInRange st userId startDate endDate).map
            (fun p => if p.type == "run" then 1 else 0)).sum
    ∧ (getWeeklySummary st userId startDate endDate).totalRestDays
        = ((entriesInRange st userId startDate endDate).map
            (fun p => if p.isRestDay then 1 else 0)).sum := by
  by_cases h : entriesInRange st userId startDate endDate = []
  · rw [(getWeeklySummary_eq st userId startDate endDate).1 h, h]
    exact ⟨rfl, rfl, rfl, rfl⟩
  · rw [(getWeeklySummary_eq st userId startDate endDate).2 h]
    exact ⟨rfl, rfl, rfl, rfl⟩

/-- C5: `getWeeklySummary` returns the sum of distance, the sum of duration, the
number of entries of type `run` and the number of entries with `isRestDay`,
each over exactly the owner's entries with `start <= date <= end`; when no
entry matches it returns the record whose six fields are all 0. -/
theorem C5_weekly_summary_totals (st : Store) (userId : String) (startDate endDate : Int) :
    (getWeeklySummary st userId startDate endDate).totalDistance
        = ((entriesInRange st userId startDate endDate).map (fun p => p.distance)).sum
    ∧ (getWeeklySummary st userId startDate endDate).totalDuration
        = ((entriesInRange st userId startDate endDate).map (fun p => p.duration)).sum
    ∧ (getWeeklySummary st userId startDate endDate).totalRuns
        = ((entriesInRange st userId startDate endDate).filter (fun p => p.type = "run")).length
    ∧ (getWeeklySummary st userId startDate endDate).totalRestDays
        = ((entriesInRange st userId startDate endDate).filter
            (fun p => p.isRestDay = true)).length
    ∧ (entriesInRange st userId startDate endDate = [] →
        getWeeklySummary st userId startDate endDate
          = { totalDistance := 0, totalDuration := 0, totalRuns := 0, totalRestDays := 0,
              averagePace := some 0, averageDifficulty := some 0 }) := by
  obtain ⟨h1, h2, h3, h4⟩ := getWeeklySummary_totals st userId startDate endDate
  refine ⟨h1, h2, ?_, ?_, ?_⟩
  · rw [h3, sum_indicator_eq_countP, List.countP_eq_length_filter]
    congr 2
  · rw [h4, sum_indicator_eq_countP, List.countP_eq_length_filter]
    congr 2
    funext p
    simp
  · intro h
    exact (getWeeklySummary_eq st userId startDate endDate).1 h

/-- A sum over the entries selected by `P` splits along two selections that
are disjoint and together select what `P` selects. -/
theorem sum_filter_split {M : Type} [AddCommMonoid M] (f : Progress → M)
    (P Q R : Progress → Bool) (hcover : ∀ p, P p = (Q p || R p))
    (hdisj : ∀ p, ¬ (Q p = true ∧ R p = true)) (l : List Progress) :
    ((l.filter P).map f).sum = ((l.filter Q).map f).sum + ((l.filter R).map f).sum := by
  induction l with
  | nil => simp
  | cons p ps ih =>
    have hc := hcover p
    have hd := hdisj p
    cases hq : Q p <;> cases hr : R p <;> rw [hq, hr] at hc hd
    · simp [List.filter_cons, hc, hq, hr, ih]
    · simp only [List.filter_cons, hc, hq, hr, Bool.false_or, if_true, List.map_cons,
        List.sum_cons, ih, Bool.false_eq_true, if_false]
      abel
    · simp only [List.filter_cons, hc, hq, hr, Bool.or_false, if_true, List.map_cons,
        List.sum_cons, ih, Bool.false_eq_true, if_false]
      abel
    · exact absurd ⟨rfl, rfl⟩ hd

/-- C6: when the range `[a, c]` is split into two disjoint sub-ranges `[a, b]`
and `[b', c]` that together contain exactly the timestamps of `[a, c]`, the
weekly summary of `[a, c]` has `totalDistance`, `totalDuration`, `totalRuns` and
`totalRestDays` equal to the sums of those of the two sub-ranges. -/
theorem C6_aggregation_additivity (st : Store) (userId : String) (a b b' c : Int)
    (hcover : ∀ t : Int, (a ≤ t ∧ t ≤ c) ↔ ((a ≤ t ∧ t ≤ b) ∨ (b' ≤ t ∧ t ≤ c)))
    (hdisj : ∀ t : Int, ¬ ((a ≤ t ∧ t ≤ b) ∧ (b' ≤ t ∧ t ≤ c))) :
    (getWeeklySummary st userId a c).totalDistance
        = (getWeeklySummary st userId a b).totalDistance
          + (getWeeklySummary st userId b' c).totalDistance
    ∧ (getWeeklySummary st userId a c).totalDuration
        = (getWeeklySummary st userId a b).totalDuration
          + (getWeeklySummary st userId b' c).totalDuration
    ∧ (getWeeklySummary st userId a c).totalRuns
        = (getWeeklySummary st userId a b).totalRuns
          + (getWeeklySummary st userId b' c).totalRuns
    ∧ (getWeeklySummary st userId a c).totalRestDays
        = (getWeeklySummary st userId a b).totalRestDays
          + (getWeeklySummary st userId b' c).totalRestDays := by
  obtain ⟨h1, h2, h3, h4⟩ := getWeeklySummary_totals st userId a c
  obtain ⟨l1, l2, l3, l4⟩ := getWeeklySummary_totals st userId a b
  obtain ⟨r1, r2, r3, r4⟩ := getWeeklySummary_totals st userId b' c
  have hc : ∀ p : Progress,
      decide (p.userId = userId ∧ a ≤ p.date ∧ p.date ≤ c)
        = (decide (p.userId = userId ∧ a ≤ p.date ∧ p.date ≤ b)
            || decide (p.userId = userId ∧ b' ≤ p.date ∧ p.date ≤ c)) := by
    intro p
    have := hcover p.date
    rw [Bool.eq_iff_iff]
    simp only [Bool.or_eq_true, decide_eq_true_eq]
    tauto
  have hd : ∀ p : Progress,
      ¬ (decide (p.userId = userId ∧ a ≤ p.date ∧ p.date ≤ b) = true
          ∧ decide (p.userId = userId ∧ b' ≤ p.date ∧ p.date ≤ c) = true) := by
    intro p
    have := hdisj p.date
    simp only [decide_eq_true_eq]
    tauto
  rw [h1, h2, h3, h4, l1, l2, l3, l4, r1, r2, r3, r4]
  unfold entriesInRange
  exact ⟨sum_filter_split _ _ _ _ hc hd _, sum_filter_split _ _ _ _ hc hd _,
    sum_filter_split _ _ _ _ hc hd _, sum_filter_split _ _ _ _ hc hd _⟩

/-- C6, witness: the range `[-5, 5]` split into `[-5, -1]` and `[0, 5]` over the
collection `storeA`; the first sub-range matches no entry. -/
theorem C6_aggregation_additivity_witness :
    (getWeeklySummary storeA "A" (-5) 5).totalDistance
        = (getWeeklySummary storeA "A" (-5) (-1)).totalDistance
          + (getWeeklySummary storeA "A" 0 5).totalDistance
    ∧ (getWeeklySummary storeA "A" (-5) 5).totalRuns
        = (getWeeklySummary storeA "A" (-5) (-1)).totalRuns
          + (getWeeklySummary storeA "A" 0 5).totalRuns := by
  have h := C6_aggregation_additivity storeA "A" (-5) (-1) 0 5 (fun t => by omega)
    (fun t => by omega)
  exact ⟨h.1, h.2.2.1⟩

/-- The scenario of the specification: the weekly summary over `[D, D]` of the
collection holding one 10 km run of 50 minutes dated `D`. -/
theorem getWeeklySummary_storeA :
    getWeeklySummary storeA "A" 0 0
      = { totalDistance := 10, totalDuration := 50, totalRuns := 1, totalRestDays := 0,
          averagePace := some 5, averageDifficulty := none } := by
  norm_num [getWeeklySummary, groupSummary, matchRange, storeA, entryA, avg, List.filterMap]

/-! ## C7: pagination completeness -/

/-- Cutting a list into `m` consecutive chunks of `n` elements loses nothing
when `m * n` reaches its length. -/
theorem flatten_chunks (n : Nat) (m : Nat) :
    ∀ l : List Progress, l.length ≤ m * n →
      ((List.range m).map (fun i => (l.drop (i * n)).take n)).flatten = l := by
  induction m with
  | zero =>
    intro l hl
    simp only [Nat.zero_mul, Nat.le_zero, List.length_eq_zero] at hl
    simp [hl]
  | succ m ih =>
    intro l hl
    rw [List.range_succ_eq_map, List.map_cons, List.flatten_cons, List.map_map]
    have hrest : (l.drop n).length ≤ m * n := by
      rw [List.length_drop]
      have : (m + 1) * n = m * n + n := Nat.succ_mul m n
      omega
    have hfun : ((fun i => (l.drop (i * n)).take n) ∘ Nat.succ)
        = fun i => ((l.drop n).drop (i * n)).take n := by
      funext i
      simp only [Function.comp, List.drop_drop, Nat.succ_eq_add_one]
      rw [Nat.succ_mul, Nat.add_comm]
    rw [hfun, ih (l.drop n) hrest]
    simp

theorem findSorted_page (st : Store) (uid : String) (q : ListQuery) (page : Option Int) :
    findSorted st uid { q with page := page } = findSorted st uid q := rfl

theorem length_findSorted (st : Store) (uid : String) (q : ListQuery) :
    (findSorted st uid q).length = (st.docs.filter (queryMatches uid q)).length :=
  (List.perm_insertionSort _ _).length_eq

theorem typeFilter_iff (type : Option String) (p : Progress) :
    (if truthyStr type then type == some p.type else true) = true
      ↔ ∀ t ∈ type, t = "" ∨ p.type = t := by
  cases type with
  | none => simp [truthyStr]
  | some t =>
    by_cases h0 : t = ""
    · simp [truthyStr, h0]
    · simp only [truthyStr, bne_iff_ne, ne_eq, h0, not_false_eq_true, if_true,
        Option.mem_def, Option.some.injEq, forall_eq', false_or, beq_iff_eq]
      exact eq_comm

theorem startFilter_iff (startDate : Option Int) (p : Progress) :
    (match startDate with
      | some s => decide (s ≤ p.date)
      | none => true) = true ↔ ∀ s ∈ startDate, s ≤ p.date := by
  cases startDate <;> simp

theorem endFilter_iff (endDate : Option Int) (p : Progress) :
    (match endDate with
      | some e => decide (p.date ≤ e)
      | none => true) = true ↔ ∀ e ∈ endDate, p.date ≤ e := by
  cases endDate <;> simp

/-- The filter the handler builds selects what the specification's filter
selects. -/
theorem queryMatches_iff (uid : String) (q : ListQuery) (p : Progress) :
    queryMatches uid q p = true ↔ ListedBy uid q p := by
  unfold queryMatches ListedBy
  rw [Bool.and_eq_true, Bool.and_eq_true, Bool.and_eq_true, typeFilter_iff, startFilter_iff,
    endFilter_iff, beq_iff_eq, and_assoc, and_assoc]

theorem filter_queryMatches (st : Store) (uid : String) (q : ListQuery) :
    st.docs.filter (queryMatches uid q) = entriesListed st uid q := by
  unfold entriesListed
  apply List.filter_congr
  intro p _
  rw [Bool.eq_iff_iff, queryMatches_iff]
  simp

/-- The answer to a listing request with `page >= 1` and `limit >= 1`, the
limit given in the query or the default of 30. -/
theorem routerGet_page (st : Store) (uid : String) (q : ListQuery) (limit page : Nat)
    (hl : 1 ≤ limit) (hq : q.limit.getD 30 = (limit : Int)) (hp : 1 ≤ page) :
    routerGet st uid { q with page := some (page : Int) }
      = ListResponse.ok (((findSorted st uid q).drop ((page - 1) * limit)).take limit)
          (page : Int)
          (some ⌈(((entriesListed st uid q).length : ℚ) / ((limit : Int) : ℚ))⌉)
          (entriesListed st uid q).length := by
  have hskip : ((page : Int) - 1) * (limit : Int) = (((page - 1) * limit : Nat) : Int) := by
    rw [Nat.cast_mul, Nat.cast_sub hp]
    rfl
  have hnn : ¬ ((page : Int) - 1) * (limit : Int) < 0 := by
    rw [hskip]
    exact not_lt.mpr (Int.ofNat_nonneg _)
  have hl0 : ¬ ((limit : Int) = 0) := by omega
  have hf : st.docs.filter (queryMatches uid { q with page := some (page : Int) })
      = entriesListed st uid q := filter_queryMatches st uid q
  unfold routerGet
  dsimp only
  rw [hf]
  simp only [hq, Option.getD_some, hnn, if_false, hl0, applyLimit, Int.natAbs_ofNat]
  rw [hskip, Int.toNat_ofNat]
  rfl

/-- C7: for every owner, every filter (type, start date, end date) and every
`limit >= 1` (given in the query, or the default of 30), every page `1, 2, ...`
is answered with at most `limit` entries and with `pages = ceil(total / limit)`
in the pagination metadata, `total` being the number of the owner's entries
that pass the filter; the concatenation of pages `1..pages` is ordered by date
descending and holds each of the owner's entries that pass the filter exactly
once and nothing else; when nothing matches, `pages = 0` and every page is
empty. -/
theorem C7_pagination_completeness (st : Store) (uid : String) (q : ListQuery) (limit : Nat)
    (hl : 1 ≤ limit) (hq : q.limit.getD 30 = (limit : Int)) :
    (∀ page : Nat, 1 ≤ page →
        routerGet st uid { q with page := some (page : Int) }
          = ListResponse.ok (pageOf st uid q page) (page : Int)
              (some ⌈(((entriesListed st uid q).length : ℚ) / (limit : ℚ))⌉)
              (entriesListed st uid q).length
        ∧ (pageOf st uid q page).length ≤ limit)
    ∧ (((List.range ⌈(((entriesListed st uid q).length : ℚ) / (limit : ℚ))⌉.toNat).map
        (fun i => pageOf st uid q (i + 1))).flatten).Perm (entriesListed st uid q)
    ∧ (((List.range ⌈(((entriesListed st uid q).length : ℚ) / (limit : ℚ))⌉.toNat).map
        (fun i => pageOf st uid q (i + 1))).flatten).Sorted (fun a b => b.date ≤ a.date)
    ∧ ((List.range ⌈(((entriesListed st uid q).length : ℚ) / (limit : ℚ))⌉.toNat).map
        (fun i => pageOf st uid q (i + 1))).flatten = findSorted st uid q
    ∧ (entriesListed st uid q = [] →
        ⌈(((entriesListed st uid q).length : ℚ) / (limit : ℚ))⌉ = 0
        ∧ ∀ page : Nat, 1 ≤ page → pageOf st uid q page = []) := by
  have hpage : ∀ page : Nat, 1 ≤ page →
      pageOf st uid q page = ((findSorted st uid q).drop ((page - 1) * limit)).take limit := by
    intro page hp
    unfold pageOf
    rw [routerGet_page st uid q limit page hl hq hp]
  have hlq : (0 : ℚ) < (limit : ℚ) := by exact_mod_cast hl
  have hperm : (findSorted st uid q).Perm (entriesListed st uid q) := by
    rw [← filter_queryMatches]
    exact List.perm_insertionSort _ _
  have hsorted : (findSorted st uid q).Sorted (fun a b => b.date ≤ a.date) := by
    haveI : IsTotal Progress (fun a b => b.date ≤ a.date) := ⟨fun a b => le_total b.date a.date⟩
    haveI : IsTrans Progress (fun a b => b.date ≤ a.date) :=
      ⟨fun _ _ _ hab hbc => le_trans hbc hab⟩
    exact List.sorted_insertionSort _ _
  have hflat : ((List.range
      ⌈(((entriesListed st uid q).length : ℚ) / (limit : ℚ))⌉.toNat).map
      (fun i => pageOf st uid q (i + 1))).flatten = findSorted st uid q := by
    have hfun : (fun i => pageOf st uid q (i + 1))
        = fun i => ((findSorted st uid q).drop (i * limit)).take limit := by
      funext i
      rw [hpage (i + 1) (Nat.succ_le_succ (Nat.zero_le i))]
      rfl
    rw [hfun]
    apply flatten_chunks
    rw [hperm.length_eq]
    have hceil := Int.le_ceil (((entriesListed st uid q).length : ℚ) / (limit : ℚ))
    have hnonneg : (0 : Int) ≤ ⌈(((entriesListed st uid q).length : ℚ) / (limit : ℚ))⌉ := by
      apply Int.ceil_nonneg
      positivity
    rw [div_le_iff₀ hlq] at hceil
    have hcast : ((entriesListed st uid q).length : Int)
        ≤ ⌈(((entriesListed st uid q).length : ℚ) / (limit : ℚ))⌉ * (limit : Int) := by
      exact_mod_cast hceil
    rw [← Int.toNat_of_nonneg hnonneg] at hcast
    exact_mod_cast hcast
  refine ⟨?_, ?_, ?_, hflat, ?_⟩
  · intro page hp
    rw [hpage page hp]
    refine ⟨?_, ?_⟩
    · rw [routerGet_page st uid q limit page hl hq hp]
      simp
    · rw [List.length_take]
      exact Nat.min_le_left _ _
  · rw [hflat]
    exact hperm
  · rw [hflat]
    exact hsorted
  · intro hnil
    refine ⟨by simp [hnil], ?_⟩
    intro page hp
    rw [hpage page hp]
    have : findSorted st uid q = [] := by
      apply List.eq_nil_of_length_eq_zero
      rw [hperm.length_eq, hnil]
      rfl
    simp [this]

/-- C7, witness: the listing of the runs of owner `U1` in `streakStore` with
the default limit of 30. -/
theorem C7_pagination_completeness_witness :
    (((List.range
        ⌈(((entriesListed streakStore "U1" ⟨none, none, some "run", none, none⟩).length : ℚ)
            / ((30 : Nat) : ℚ))⌉.toNat).map
      (fun i => pageOf streakStore "U1" ⟨none, none, some "run", none, none⟩ (i + 1))).flatten).Perm
      (entriesListed streakStore "U1" ⟨none, none, some "run", none, none⟩) :=
  (C7_pagination_completeness streakStore "U1" ⟨none, none, some "run", none, none⟩ 30
    (by decide) rfl).2.1

/-! ## C8: invariants of stored entries -/

theorem requiredStr_iff (v : Option String) :
    requiredStr v = true ↔ ∃ s, v = some s ∧ s ≠ "" := by
  cases v <;> simp [requiredStr]

theorem enumOk_iff (vocabulary : List String) (v : Option String) :
    enumOk vocabulary v = true ↔ ∀ s, v = some s → s ∈ vocabulary := by
  cases v <;> simp [enumOk]

theorem minOk_iff (bound : ℚ) (v : Option ℚ) :
    minOk bound v = true ↔ ∀ q, v = some q → bound ≤ q := by
  cases v <;> simp [minOk]

theorem maxOk_iff (bound : ℚ) (v : Option ℚ) :
    maxOk bound v = true ↔ ∀ q, v = some q → q ≤ bound := by
  cases v <;> simp [maxOk]

theorem maxlengthOk_iff (bound : Nat) (v : Option String) :
    maxlengthOk bound v = true ↔ ∀ s, v = some s → jsLength s ≤ bound := by
  cases v <;> simp [maxlengthOk]

/-- What a create request that passes validation satisfies. -/
theorem createValid_iff (uid : String) (b : CreateBody) :
    createValid uid b = true ↔
      ((((((((∃ s, some uid = some s ∧ s ≠ "")
        ∧ (∃ t, b.type = some t ∧ t ≠ "") ∧ (∀ t, b.type = some t → t ∈ typeEnum))
        ∧ (∀ q, some (orNum b.distance 0) = some q → 0 ≤ q))
        ∧ (∀ q, some (orNum b.duration 0) = some q → 0 ≤ q))
        ∧ (∀ n, b.notes = some n → jsLength n ≤ 500))
        ∧ (∀ w, b.weather = some w → w ∈ weatherEnum))
        ∧ (∀ d, b.difficulty = some d → 1 ≤ d) ∧ (∀ d, b.difficulty = some d → d ≤ 10))
        ∧ (∀ m, b.mood = some m → m ∈ moodEnum)) := by
  simp only [createValid, typeOk, nonNegOk, notesOk, weatherOk, difficultyOk, moodOk,
    Bool.and_eq_true, requiredStr_iff, enumOk_iff, minOk_iff, maxOk_iff, maxlengthOk_iff]

/-- What an update that passes the update validators satisfies. -/
theorem updateValid_iff (u : UpdateBody) :
    updateValid u = true ↔
      (((((((u.userId.isNone = true ∨ ∃ s, u.userId = some s ∧ s ≠ "")
        ∧ (u.type.isNone = true
            ∨ (∃ t, u.type = some t ∧ t ≠ "") ∧ (∀ t, u.type = some t → t ∈ typeEnum)))
        ∧ (∀ q, u.distance = some q → 0 ≤ q))
        ∧ (∀ q, u.duration = some q → 0 ≤ q))
        ∧ (∀ n, u.notes = some n → jsLength n ≤ 500))
        ∧ (∀ w, u.weather = some w → w ∈ weatherEnum))
        ∧ (∀ d, u.difficulty = some d → 1 ≤ d) ∧ (∀ d, u.difficulty = some d → d ≤ 10))
        ∧ (∀ m, u.mood = some m → m ∈ moodEnum) := by
  simp only [updateValid, typeOk, nonNegOk, notesOk, weatherOk, difficultyOk, moodOk,
    Bool.and_eq_true, Bool.or_eq_true, requiredStr_iff, enumOk_iff, minOk_iff, maxOk_iff,
    maxlengthOk_iff]

theorem typeEnum_eq : typeEnum = ["run", "walk", "cross_training", "rest"] := rfl

theorem weatherEnum_eq : weatherEnum = ["sunny", "cloudy", "rainy", "snowy", "hot", "cold"] := rfl

theorem moodEnum_eq : moodEnum = ["excellent", "good", "okay", "tough", "difficult"] := rfl

/-- The document a valid create request builds satisfies the constraints. -/
theorem schemaInvariant_newProgress (st : Store) (uid : String) (now : Int) (b : CreateBody)
    (hv : createValid uid b = true) : SchemaInvariant (newProgress st uid now b) := by
  rw [createValid_iff] at hv
  obtain ⟨⟨⟨⟨⟨⟨⟨-, ⟨t, ht, -⟩, htype⟩, hdist⟩, hdur⟩, hnotes⟩, hweather⟩, hd1, hd10⟩, hmood⟩ := hv
  refine ⟨hdist _ rfl, hdur _ rfl, fun d hd => ⟨hd1 d hd, hd10 d hd⟩, ?_, ?_, ?_, hnotes⟩
  · have := htype t ht
    simp only [newProgress, ht, Option.getD_some]
    exact this
  · exact hweather
  · exact hmood

/-- Applying a valid update to a document that satisfies the constraints
yields one that satisfies them. -/
theorem schemaInvariant_applyUpdate (p : Progress) (u : UpdateBody) (now : Int)
    (hp : SchemaInvariant p) (hv : updateValid u = true) :
    SchemaInvariant (applyUpdate p u now) := by
  rw [updateValid_iff] at hv
  obtain ⟨⟨⟨⟨⟨⟨⟨-, htype⟩, hdist⟩, hdur⟩, hnotes⟩, hweather⟩, hd1, hd10⟩, hmood⟩ := hv
  obtain ⟨p1, p2, p3, p4, p5, p6, p7⟩ := hp
  refine ⟨?_, ?_, ?_, ?_, ?_, ?_, ?_⟩
  · simp only [applyUpdate]
    cases h : u.distance with
    | none => exact p1
    | some d => exact hdist d h
  · simp only [applyUpdate]
    cases h : u.duration with
    | none => exact p2
    | some d => exact hdur d h
  · simp only [applyUpdate]
    cases h : u.difficulty with
    | none => exact p3
    | some d =>
      intro d2 hd2
      simp only [Option.orElse, Option.some.injEq] at hd2
      subst hd2
      exact ⟨hd1 d h, hd10 d h⟩
  · simp only [applyUpdate]
    cases h : u.type with
    | none => exact p4
    | some t =>
      rcases htype with hnone | ⟨-, hin⟩
      · rw [h] at hnone
        exact absurd hnone (by simp)
      · exact hin t h
  · simp only [applyUpdate]
    cases h : u.weather with
    | none => exact p5
    | some w =>
      intro w2 hw2
      simp only [Option.orElse, Option.some.injEq] at hw2
      subst hw2
      exact hweather w h
  · simp only [applyUpdate]
    cases h : u.mood with
    | none => exact p6
    | some m =>
      intro m2 hm2
      simp only [Option.orElse, Option.some.injEq] at hm2
      subst hm2
      exact hmood m h
  · simp only [applyUpdate]
    cases h : u.notes with
    | none => exact p7
    | some n =>
      intro n2 hn2
      simp only [Option.orElse, Option.some.injEq] at hn2
      subst hn2
      exact hnotes n h

theorem mem_replaceOwned (id : Nat) (uid : String) (q : Progress) (l : List Progress)
    (x : Progress) (hx : x ∈ replaceOwned id uid q l) : x = q ∨ x ∈ l := by
  induction l with
  | nil => exact absurd hx (List.not_mem_nil x)
  | cons p ps ih =>
    unfold replaceOwned at hx
    split at hx
    · rcases List.mem_cons.1 hx with h | h
      · exact Or.inl h
      · exact Or.inr (List.mem_cons_of_mem p h)
    · rcases List.mem_cons.1 hx with h | h
      · exact Or.inr (h ▸ List.mem_cons_self p ps)
      · rcases ih h with h2 | h2
        · exact Or.inl h2
        · exact Or.inr (List.mem_cons_of_mem p h2)

/-- A create request keeps the constraints of the stored entries. -/
theorem schemaInvariant_routerPost (st : Store) (uid : String) (now : Int) (body : CreateBody)
    (ih : ∀ p ∈ st.docs, SchemaInvariant p) :
    ∀ p ∈ (routerPost st uid now body).1.docs, SchemaInvariant p := by
  by_cases hv : createValid uid body = true
  · rw [routerPost_of_valid st uid now body hv]
    intro p hp
    rcases List.mem_append.1 hp with hp | hp
    · exact ih p hp
    · rw [List.mem_singleton.1 hp]
      exact schemaInvariant_newProgress st uid now body hv
  · rw [routerPost_of_invalid st uid now body (by simpa using hv)]
    exact ih

/-- An update request of plain fields keeps the constraints of the stored
entries. -/
theorem schemaInvariant_routerPut (st : Store) (uid : String) (now : Int) (id : Nat)
    (body : UpdateBody) (ih : ∀ p ∈ st.docs, SchemaInvariant p) :
    ∀ p ∈ (routerPut st uid now id body).1.docs, SchemaInvariant p := by
  unfold routerPut
  dsimp only
  split
  · rename_i hv
    split
    · rename_i p hp
      intro x hx
      rcases mem_replaceOwned _ _ _ _ _ hx with hx | hx
      · rw [hx]
        exact schemaInvariant_applyUpdate p _ now (ih p (findOwned_some st id uid p hp).1) hv
      · exact ih x hx
    · exact ih
  · exact ih

/-- A delete request keeps the constraints of the stored entries. -/
theorem schemaInvariant_routerDelete (st : Store) (uid : String) (id : Nat)
    (ih : ∀ p ∈ st.docs, SchemaInvariant p) :
    ∀ p ∈ (routerDelete st uid id).1.docs, SchemaInvariant p := by
  unfold routerDelete
  split
  · intro p hp
    exact ih p ((removeOwned_sublist id uid st.docs).subset hp)
  · exact ih

theorem orNum_of_neg (d : ℚ) (hd : d < 0) : orNum (some d) 0 = d := by
  unfold orNum
  simp [ne_of_lt hd]

/-- A create request with a violating field does not pass validation. -/
theorem createValid_of_violates (uid : String) (b : CreateBody) (h : CreateViolates b) :
    createValid uid b = false := by
  rw [← Bool.not_eq_true]
  intro hv
  rw [createValid_iff] at hv
  obtain ⟨⟨⟨⟨⟨⟨⟨-, ⟨t, ht, -⟩, htype⟩, hdist⟩, hdur⟩, hnotes⟩, hweather⟩, hd1, hd10⟩, hmood⟩ := hv
  rcases h with ⟨d, hd, hneg⟩ | ⟨d, hd, hneg⟩ | ⟨d, hd, hbad⟩ | hbad | ⟨w, hw, hbad⟩
    | ⟨m, hm, hbad⟩ | ⟨n, hn, hbad⟩
  · have := hdist _ rfl
    rw [hd, orNum_of_neg d hneg] at this
    exact absurd hneg (not_lt.mpr this)
  · have := hdur _ rfl
    rw [hd, orNum_of_neg d hneg] at this
    exact absurd hneg (not_lt.mpr this)
  · exact hbad ⟨hd1 d hd, hd10 d hd⟩
  · exact hbad t ht (htype t ht)
  · exact hbad (hweather w hw)
  · exact hbad (hmood m hm)
  · exact absurd (hnotes n hn) (not_le.mpr hbad)

/-- An update with a violating field does not pass the update validators. -/
theorem updateValid_of_violates (u : UpdateBody) (h : UpdateViolates u) :
    updateValid u = false := by
  rw [← Bool.not_eq_true]
  intro hv
  rw [updateValid_iff] at hv
  obtain ⟨⟨⟨⟨⟨⟨⟨-, htype⟩, hdist⟩, hdur⟩, hnotes⟩, hweather⟩, hd1, hd10⟩, hmood⟩ := hv
  rcases h with ⟨d, hd, hneg⟩ | ⟨d, hd, hneg⟩ | ⟨d, hd, hbad⟩ | ⟨t, ht, hbad⟩ | ⟨w, hw, hbad⟩
    | ⟨m, hm, hbad⟩ | ⟨n, hn, hbad⟩
  · exact absurd hneg (not_lt.mpr (hdist d hd))
  · exact absurd hneg (not_lt.mpr (hdur d hd))
  · exact hbad ⟨hd1 d hd, hd10 d hd⟩
  · rcases htype with hnone | ⟨-, hin⟩
    · rw [ht] at hnone
      exact absurd hnone (by simp)
    · exact hbad (hin t ht)
  · exact hbad (hweather w hw)
  · exact hbad (hmood m hm)
  · exact absurd (hnotes n hn) (not_le.mpr hbad)

/-- A create request, and an update request of plain fields, one of whose
fields violates a constraint fails and leaves the collection unchanged. -/
theorem violating_request_fails (st : Store) (uid : String) (now : Int) :
    (∀ b : CreateBody, CreateViolates b →
        routerPost st uid now b = (st, Response.serverError))
    ∧ (∀ (id : Nat) (u : UpdateBody), UpdateViolates u →
        routerPut st uid now id u = (st, Response.serverError)) := by
  refine ⟨?_, ?_⟩
  · intro b hb
    exact routerPost_of_invalid st uid now b (createValid_of_violates uid b hb)
  · intro id u hu
    unfold routerPut
    simp only [updateValid_recalcPace, updateValid_of_violates u hu]
    rfl

/-- On a body without `$inc` the handler is `routerPut`. -/
theorem routerPutBody_plain (st : Store) (uid : String) (now : Int) (id : Nat)
    (u : UpdateBody) :
    routerPutBody st uid now id ⟨u, IncOps.none⟩ = routerPut st uid now id u := by
  have hc : ∀ v : UpdateBody, incConflict v IncOps.none = false := by
    intro v
    simp [incConflict, IncOps.none]
  have hi : ∀ p : Progress, applyInc p IncOps.none = p := by
    intro p
    simp [applyInc, incField, IncOps.none]
  unfold routerPutBody routerPut
  simp only [hc, hi, Bool.not_false, Bool.and_true]

/-- C8 fails on the code: the owner `A` of `entryA` (distance 10) sends an
update whose body is `{ "$inc": { "distance": -100 } }`. The handler hands the
body to `findOneAndUpdate` whole and the update validators do not check
`$inc`, so the update succeeds and the entry is stored with distance `-90`: a
reachable collection holds an entry with a negative distance. -/
theorem C8_inc_stores_negative_distance :
    Reachable storeA ∧ SchemaInvariant entryA
    ∧ ∃ p : Progress,
        routerPutBody storeA "A" 1 entryA.id
            ⟨UpdateBody.none, { IncOps.none with distance := some (-100) }⟩
          = (⟨[p], 1⟩, Response.updated p)
        ∧ Reachable ⟨[p], 1⟩
        ∧ p.id = entryA.id ∧ p.distance = -90 ∧ p.distance < 0 ∧ ¬ SchemaInvariant p := by
  have hput : routerPutBody storeA "A" 1 entryA.id
      ⟨UpdateBody.none, { IncOps.none with distance := some (-100) }⟩
      = (⟨[{ entryA with distance := -90, updatedAt := 1 }], 1⟩,
          Response.updated { entryA with distance := -90, updatedAt := 1 }) := by
    norm_num [routerPutBody, recalcPace, updateValid, incConflict, applyInc, incField,
      UpdateBody.none, IncOps.none, truthyNum, nonNegOk, minOk, maxOk, notesOk, maxlengthOk,
      weatherOk, enumOk, difficultyOk, moodOk, findOwned, storeA, entryA, applyUpdate,
      replaceOwned]
  have hinv : SchemaInvariant entryA := by
    refine ⟨by norm_num [entryA], by norm_num [entryA], ?_, by simp [entryA], ?_, ?_, ?_⟩
      <;> intro x hx <;> simp [entryA] at hx
  refine ⟨reachable_storeA, hinv, { entryA with distance := -90, updatedAt := 1 }, hput, ?_,
    rfl, rfl, by norm_num, ?_⟩
  · have h := Reachable.put storeA "A" 1 entryA.id
      ⟨UpdateBody.none, { IncOps.none with distance := some (-100) }⟩ reachable_storeA
    rw [hput] at h
    exact h
  · intro hp
    have h0 : (0 : ℚ) ≤ -90 := hp.1
    norm_num at h0

/-! ## C9: pace of an updated entry -/

theorem routerPost_paced :
    routerPost Store.empty "A" 0 { runBody with pace := some 4 }
      = (storePaced, Response.created entryPaced) := by
  norm_num [routerPost, createValid, newProgress, createPace, runBody, Store.empty, requiredStr,
    typeOk, enumOk, typeEnum, nonNegOk, minOk, orNum, notesOk, maxlengthOk, weatherOk,
    difficultyOk, moodOk, maxOk, truthyNum, gtZero, orFalse, storePaced, entryPaced, entryA]
  decide

/-- C9, as stated, fails: the entry `entryPaced` (distance 10, duration 50,
explicit pace 4) is updated by its owner with a request that supplies only
`notes`; the handler recalculates the pace only when the request carries a
distance or a duration, so the pace stays 4, whereas the claim asks for
`50 / 10 = 5`. -/
theorem C9_counterexample :
    routerPost Store.empty "A" 0 { runBody with pace := some 4 }
        = (storePaced, Response.created entryPaced)
    ∧ ∃ p : Progress,
        routerPut storePaced "A" 1 0 { UpdateBody.none with notes := some "x" }
          = (⟨[p], 1⟩, Response.updated p)
        ∧ p.pace = some 4
        ∧ claimedUpdatePace entryPaced { UpdateBody.none with notes := some "x" } = some 5
        ∧ p.pace ≠ claimedUpdatePace entryPaced { UpdateBody.none with notes := some "x" } := by
  have hc : claimedUpdatePace entryPaced { UpdateBody.none with notes := some "x" } = some 5 := by
    norm_num [claimedUpdatePace, UpdateBody.none, entryPaced, entryA]
  refine ⟨routerPost_paced, { entryPaced with notes := some "x", updatedAt := 1 }, ?_, rfl, hc,
    ?_⟩
  · norm_num [routerPut, recalcPace, updateValid, UpdateBody.none, truthyNum, nonNegOk, minOk,
      maxOk, notesOk, maxlengthOk, weatherOk, enumOk, difficultyOk, moodOk, findOwned,
      storePaced, entryPaced, entryA, applyUpdate, replaceOwned, jsLength]
    decide
  · rw [hc]
    norm_num [entryPaced]

theorem orNum_eq_getD (x : Option ℚ) (d : ℚ) (h : x ≠ some 0) : orNum x d = x.getD d := by
  cases x with
  | none => rfl
  | some q =>
    have hq : q ≠ 0 := fun h0 => h (by rw [h0])
    simp [orNum, hq]

theorem truthyNum_eq_isSome (x : Option ℚ) (h : x ≠ some 0) : truthyNum x = x.isSome := by
  cases x with
  | none => rfl
  | some q =>
    have hq : q ≠ 0 := fun h0 => h (by rw [h0])
    simp [truthyNum, hq]

/-- With unique ids, the document found for its owner is the one found by id. -/
theorem findById_of_findOwned (st : Store) (id : Nat) (uid : String) (e : Progress)
    (hids : (st.docs.map (fun p => p.id)).Nodup) (he : findOwned st id uid = some e) :
    findById st id = some e := by
  obtain ⟨hmem, hid, -⟩ := findOwned_some st id uid e he
  unfold findById
  cases hf : st.docs.find? (fun p => p.id == id) with
  | none =>
    rw [List.find?_eq_none] at hf
    exact absurd (by simpa using hid) (hf e hmem)
  | some x =>
    have hx := List.find?_some hf
    have hxmem := List.mem_of_find?_eq_some hf
    simp only [beq_iff_eq] at hx
    rw [List.inj_on_of_nodup_map hids hxmem hmem (hx.trans hid.symm)]

/-- The update document after the recalculation block, for a request whose
supplied distance and duration are not zero. -/
theorem recalcPace_of_nonzero (st : Store) (id : Nat) (u : UpdateBody) (e : Progress)
    (he : findById st id = some e) (hzd : u.distance ≠ some 0) (hzt : u.duration ≠ some 0) :
    recalcPace st id u =
      if u.distance.isSome || u.duration.isSome then
        if 0 < u.distance.getD e.distance ∧ 0 < u.duration.getD e.duration then
          { u with pace := some (u.duration.getD e.duration / u.distance.getD e.distance) }
        else u
      else u := by
  unfold recalcPace
  rw [truthyNum_eq_isSome _ hzd, truthyNum_eq_isSome _ hzt, he]
  simp only [orNum_eq_getD _ _ hzd, orNum_eq_getD _ _ hzt, gtZero, Bool.and_eq_true,
    decide_eq_true_eq]

/-- C9 (amended): for an entry `e` owned by the caller and an update request
`u` that passes validation and supplies no zero distance and no zero duration,
the update succeeds and the pace of the updated entry is: `u.pace` (0 included)
when `u` supplies a pace and neither a distance nor a duration; when `u`
supplies no pace but a distance or a duration, `duration / distance` of the
effective values (the supplied value, or that of `e` for a field not supplied)
if both are strictly positive, and the pace as it was if they are not; and the
pace as it was when `u` supplies none of pace, distance and duration. -/
theorem C9_pace_on_update (st : Store) (uid : String) (now : Int) (id : Nat) (u : UpdateBody)
    (e : Progress) (hids : (st.docs.map (fun p => p.id)).Nodup)
    (he : findOwned st id uid = some e) (hv : updateValid u = true)
    (hzd : u.distance ≠ some 0) (hzt : u.duration ≠ some 0) :
    ∃ p : Progress,
      routerPut st uid now id u
        = (⟨replaceOwned id uid p st.docs, st.nextId⟩, Response.updated p)
      ∧ (∀ q, u.pace = some q → u.distance = none → u.duration = none → p.pace = some q)
      ∧ (u.pace = none → (u.distance ≠ none ∨ u.duration ≠ none) →
          p.pace =
            if 0 < u.distance.getD e.distance ∧ 0 < u.duration.getD e.duration then
              some (u.duration.getD e.duration / u.distance.getD e.distance)
            else e.pace)
      ∧ (u.pace = none → u.distance = none → u.duration = none → p.pace = e.pace) := by
  have hrec := recalcPace_of_nonzero st id u e (findById_of_findOwned st id uid e hids he) hzd hzt
  refine ⟨applyUpdate e (recalcPace st id u) now, ?_, ?_, ?_, ?_⟩
  · unfold routerPut
    simp only [updateValid_recalcPace, hv, he, if_true]
  · intro q hq hd ht
    rw [hrec, hd, ht]
    simp [applyUpdate, hq]
  · intro hp hsome
    have hs : (u.distance.isSome || u.duration.isSome) = true := by
      rcases hsome with h | h
      · simp [Option.isSome_iff_ne_none.2 h]
      · simp [Option.isSome_iff_ne_none.2 h]
    rw [hrec, hs, if_pos rfl]
    by_cases hpos : 0 < u.distance.getD e.distance ∧ 0 < u.duration.getD e.duration
    · rw [if_pos hpos, if_pos hpos]
      simp [applyUpdate]
    · rw [if_neg hpos, if_neg hpos]
      simp [applyUpdate, hp]
  · intro hp hd ht
    rw [hrec, hd, ht]
    simp [applyUpdate, hp]

/-- C9, witness: the owner of `entryA` (distance 10, duration 50) supplies the
distance 20; the updated pace is `50 / 20`. -/
theorem C9_pace_on_update_witness :
    ∃ p : Progress,
      routerPut storeA "A" 1 0 { UpdateBody.none with distance := some 20 }
        = (⟨replaceOwned 0 "A" p storeA.docs, storeA.nextId⟩, Response.updated p)
      ∧ p.pace = some (5 / 2) := by
  have hv : updateValid { UpdateBody.none with distance := some 20 } = true := by
    norm_num [updateValid, UpdateBody.none, nonNegOk, minOk, maxOk, notesOk, maxlengthOk,
      weatherOk, enumOk, difficultyOk, moodOk]
  have he : findOwned storeA 0 "A" = some entryA := by
    simp [findOwned, storeA, entryA]
  obtain ⟨p, h1, -, h2, -⟩ := C9_pace_on_update storeA "A" 1 0
    { UpdateBody.none with distance := some 20 } entryA (by simp [storeA]) he hv
    (by simp) (by simp [UpdateBody.none])
  refine ⟨p, h1, ?_⟩
  rw [h2 rfl (Or.inl (by simp))]
  norm_num [UpdateBody.none, entryA]

/-! ## C10: the owner of an updated entry -/

/-- C10 fails on the code: the owner `A` of `entryA` sends an update whose body
holds `userId = "B"`; the handler passes the body to `findOneAndUpdate` whole,
so the entry with the id of `entryA` now has `userId = "B"`, and owner `B`, who
had no entry, has one. -/
theorem C10_update_reassigns_owner :
    entryA ∈ storeA.docs ∧ entryA.userId = "A"
    ∧ ∃ p : Progress,
        routerPut storeA "A" 1 entryA.id { UpdateBody.none with userId := some "B" }
          = (⟨[p], 1⟩, Response.updated p)
        ∧ p.id = entryA.id ∧ p.userId = "B" ∧ p.userId ≠ entryA.userId
        ∧ storeA.docs.filter (fun x => x.userId == "B") = []
        ∧ [p].filter (fun x => x.userId == "B") = [p] := by
  refine ⟨by simp [storeA], rfl, { entryA with userId := "B", updatedAt := 1 }, ?_, rfl, rfl,
    by decide, by simp [storeA, entryA], by simp⟩
  norm_num [routerPut, recalcPace, updateValid, UpdateBody.none, truthyNum, nonNegOk, minOk,
    maxOk, notesOk, maxlengthOk, weatherOk, enumOk, difficultyOk, moodOk, findOwned,
    storeA, entryA, applyUpdate, replaceOwned, requiredStr]
  decide

/-! ## C11: averages of the weekly summary and of the period statistics -/

theorem routerPost_restBody :
    routerPost Store.empty "A" 0 restBody = (storeRest, Response.created entryRest) := by
  norm_num [routerPost, createValid, newProgress, createPace, restBody, Store.empty, requiredStr,
    typeOk, enumOk, typeEnum, nonNegOk, minOk, orNum, notesOk, maxlengthOk, weatherOk,
    difficultyOk, moodOk, maxOk, truthyNum, gtZero, orFalse, storeRest, entryRest]
  decide

/-- The total stats in terms of the matched entries. -/
theorem routerGetStats_totalStats (st : Store) (uid : String) (now : Int) (period : Option Int) :
    (entriesInRange st uid (now - period.getD 30 * 24 * 60 * 60 * 1000) now = [] →
        (routerGetStats st uid now period).totalStats = zeroTotalStats)
    ∧ (entriesInRange st uid (now - period.getD 30 * 24 * 60 * 60 * 1000) now ≠ [] →
        (routerGetStats st uid now period).totalStats =
          { totalDistance := ((entriesInRange st uid
              (now - period.getD 30 * 24 * 60 * 60 * 1000) now).map (fun p => p.distance)).sum
            totalDuration := ((entriesInRange st uid
              (now - period.getD 30 * 24 * 60 * 60 * 1000) now).map (fun p => p.duration)).sum
            totalActivities := ((entriesInRange st uid
              (now - period.getD 30 * 24 * 60 * 60 * 1000) now).map (fun _ => 1)).sum
            averagePace := avg ((entriesInRange st uid
              (now - period.getD 30 * 24 * 60 * 60 * 1000) now).filterMap (fun p => p.pace))
            averageDifficulty := avg ((entriesInRange st uid
              (now - period.getD 30 * 24 * 60 * 60 * 1000) now).filterMap
                (fun p => p.difficulty)) }) := by
  unfold routerGetStats groupTotalStats
  dsimp only
  rw [matchRange_eq_entriesInRange]
  constructor
  · intro h
    rw [h]
    rfl
  · intro h
    rw [if_neg (by simpa [List.isEmpty_iff] using h)]
    rfl

/-- The accumulator `$avg` over a non-empty group follows the convention. -/
theorem averageOf_avg (matched : List Progress) (field : Progress → Option ℚ)
    (h : matched ≠ []) : AverageOf matched field (avg (matched.filterMap field)) := by
  refine ⟨?_, fun h0 => absurd h0 h, ?_⟩
  · intro hne
    unfold avg
    rw [if_neg (by simpa [List.isEmpty_iff] using hne)]
  · intro _ hnil
    rw [hnil]
    rfl

/-- The fallback literal follows the convention when nothing matches. -/
theorem averageOf_zero (field : Progress → Option ℚ) : AverageOf [] field (some 0) :=
  ⟨fun h => absurd rfl h, fun _ => rfl, fun h => absurd rfl h⟩

/-- C11, as stated, fails: owner `A` has one entry, a rest day without pace and
without difficulty. It matches the range `[0, 0]`, and the weekly summary and
the total stats report the averages of pace and difficulty as absent (`null`),
not as 0. -/
theorem C11_counterexample :
    routerPost Store.empty "A" 0 restBody = (storeRest, Response.created entryRest)
    ∧ entriesInRange storeRest "A" 0 0 = [entryRest]
    ∧ (getWeeklySummary storeRest "A" 0 0).averagePace = none
    ∧ (getWeeklySummary storeRest "A" 0 0).averageDifficulty = none
    ∧ (routerGetStats storeRest "A" 0 none).totalStats.averagePace = none
    ∧ (routerGetStats storeRest "A" 0 none).totalStats.averageDifficulty = none
    ∧ (none : Option ℚ) ≠ some 0 := by
  refine ⟨routerPost_restBody, ?_, ?_, ?_, ?_, ?_, by simp⟩
  · norm_num [entriesInRange, storeRest, entryRest]
  · norm_num [getWeeklySummary, groupSummary, matchRange, storeRest, entryRest, avg,
      List.filterMap]
  · norm_num [getWeeklySummary, groupSummary, matchRange, storeRest, entryRest, avg,
      List.filterMap]
  · norm_num [routerGetStats, groupTotalStats, matchRange, storeRest, entryRest, avg,
      List.filterMap]
  · norm_num [routerGetStats, groupTotalStats, matchRange, storeRest, entryRest, avg,
      List.filterMap]

/-- C11 (amended): for every owner, range and store state, `averagePace` of the
weekly summary, and of the total stats of the period statistics, equals the
arithmetic mean of pace over the matched entries that have a pace when there is
such an entry, equals 0 when no entry matches at all, and is absent (`null`)
when entries match but none of them carries a pace; the same holds for
`averageDifficulty` with respect to difficulty. -/
theorem C11_average_convention (st : Store) (uid : String) (startDate endDate now : Int)
    (period : Option Int) :
    AverageOf (entriesInRange st uid startDate endDate) (fun p => p.pace)
        (getWeeklySummary st uid startDate endDate).averagePace
    ∧ AverageOf (entriesInRange st uid startDate endDate) (fun p => p.difficulty)
        (getWeeklySummary st uid startDate endDate).averageDifficulty
    ∧ AverageOf (entriesInRange st uid (now - period.getD 30 * 24 * 60 * 60 * 1000) now)
        (fun p => p.pace) (routerGetStats st uid now period).totalStats.averagePace
    ∧ AverageOf (entriesInRange st uid (now - period.getD 30 * 24 * 60 * 60 * 1000) now)
        (fun p => p.difficulty)
        (routerGetStats st uid now period).totalStats.averageDifficulty := by
  refine ⟨?_, ?_, ?_, ?_⟩
  · by_cases h : entriesInRange st uid startDate endDate = []
    · rw [(getWeeklySummary_eq st uid startDate endDate).1 h, h]
      exact averageOf_zero _
    · rw [(getWeeklySummary_eq st uid startDate endDate).2 h]
      exact averageOf_avg _ _ h
  · by_cases h : entriesInRange st uid startDate endDate = []
    · rw [(getWeeklySummary_eq st uid startDate endDate).1 h, h]
      exact averageOf_zero _
    · rw [(getWeeklySummary_eq st uid startDate endDate).2 h]
      exact averageOf_avg _ _ h
  · by_cases h : entriesInRange st uid (now - period.getD 30 * 24 * 60 * 60 * 1000) now = []
    · rw [(routerGetStats_totalStats st uid now period).1 h, h]
      exact averageOf_zero _
    · rw [(routerGetStats_totalStats st uid now period).2 h]
      exact averageOf_avg _ _ h
  · by_cases h : entriesInRange st uid (now - period.getD 30 * 24 * 60 * 60 * 1000) now = []
    · rw [(routerGetStats_totalStats st uid now period).1 h, h]
      exact averageOf_zero _
    · rw [(routerGetStats_totalStats st uid now period).2 h]
      exact averageOf_avg _ _ h

/-! ## C12: the listing parameters `page` and `limit` -/

/-- C12, as stated, fails: a listing request with `page = 1` and `limit = 0` is
not rejected. On the empty collection it is answered with an empty page, and on
`storeA` with the page holding the entry of `A`; no validation error is raised. -/
theorem C12_counterexample :
    routerGet Store.empty "A" ⟨some 1, some 0, none, none, none⟩ = ListResponse.ok [] 1 none 0
    ∧ routerGet storeA "A" ⟨some 1, some 0, none, none, none⟩
        = ListResponse.ok [entryA] 1 none 1
    ∧ ListResponse.ok [entryA] 1 none 1 ≠ ListResponse.serverError := by
  refine ⟨?_, ?_, by simp⟩
  · simp [routerGet, findSorted, sortByDateDesc, applyLimit, Store.empty]
  · simp [routerGet, findSorted, sortByDateDesc, applyLimit, storeA, queryMatches, truthyStr,
      entryA]

/-- C12 (amended): the handler does not validate `page` and `limit`. A listing
request fails, with the server error and without a page, exactly when the
number of results to skip, `(page - 1) * limit`, is negative, as it is for
`page < 1` with `limit >= 1`; every other request is answered with a page, also
when `limit <= 0`. A request with `page >= 1` and `limit >= 1` succeeds with
`pages = ceil(total / limit)`, and with an empty page and `pages = 0` when no
entry matches. -/
theorem C12_listing_parameters (st : Store) (uid : String) (q : ListQuery) :
    ((q.page.getD 1 - 1) * q.limit.getD 30 < 0 → routerGet st uid q = ListResponse.serverError)
    ∧ (0 ≤ (q.page.getD 1 - 1) * q.limit.getD 30 →
        ∃ progress pages, routerGet st uid q
          = ListResponse.ok progress (q.page.getD 1) pages
              (st.docs.filter (queryMatches uid q)).length)
    ∧ (q.page.getD 1 < 1 → 1 ≤ q.limit.getD 30 → routerGet st uid q = ListResponse.serverError)
    ∧ (1 ≤ q.page.getD 1 → 1 ≤ q.limit.getD 30 →
        ∃ progress, routerGet st uid q
          = ListResponse.ok progress (q.page.getD 1)
              (some ⌈(((st.docs.filter (queryMatches uid q)).length : ℚ)
                / ((q.limit.getD 30 : Int) : ℚ))⌉)
              (st.docs.filter (queryMatches uid q)).length
          ∧ (st.docs.filter (queryMatches uid q) = [] →
              progress = []
              ∧ ⌈(((st.docs.filter (queryMatches uid q)).length : ℚ)
                  / ((q.limit.getD 30 : Int) : ℚ))⌉ = 0)) := by
  have hneg : (q.page.getD 1 - 1) * q.limit.getD 30 < 0 →
      routerGet st uid q = ListResponse.serverError := by
    intro h
    unfold routerGet
    simp only [h, if_true]
  refine ⟨hneg, ?_, ?_, ?_⟩
  · intro h
    unfold routerGet
    simp only [not_lt.mpr h, if_false]
    exact ⟨_, _, rfl⟩
  · intro hp hl
    apply hneg
    exact mul_neg_of_neg_of_pos (by omega) (by omega)
  · intro hp hl
    have hskip : ¬ (q.page.getD 1 - 1) * q.limit.getD 30 < 0 :=
      not_lt.mpr (mul_nonneg (by omega) (by omega))
    have hl0 : ¬ q.limit.getD 30 = 0 := by omega
    refine ⟨applyLimit (q.limit.getD 30)
      ((findSorted st uid q).drop ((q.page.getD 1 - 1) * q.limit.getD 30).toNat), ?_, ?_⟩
    · unfold routerGet
      simp only [hskip, if_false, hl0]
    · intro hnil
      have hs : findSorted st uid q = [] := by
        apply List.eq_nil_of_length_eq_zero
        rw [length_findSorted, hnil]
        rfl
      refine ⟨?_, by simp [hnil]⟩
      rw [hs]
      simp [applyLimit]

/-! ## C13: the weekly trend of the period statistics -/

theorem routerPost_runBody_at (st : Store) (now : Int) :
    routerPost st "U1" now runBody
      = (⟨st.docs ++ [runOn st.nextId now], st.nextId + 1⟩,
          Response.created (runOn st.nextId now)) := by
  have hv : createValid "U1" runBody = true := by
    norm_num [createValid, runBody, requiredStr, typeOk, enumOk, typeEnum, nonNegOk, minOk,
      orNum, notesOk, maxlengthOk, weatherOk, difficultyOk, moodOk, maxOk]
    decide
  have hnew : newProgress st "U1" now runBody = runOn st.nextId now := by
    norm_num [newProgress, runOn, entryA, runBody, createPace, truthyNum, gtZero, orNum, orFalse]
  rw [routerPost_of_valid st "U1" now runBody hv, hnew]

theorem reachable_newYearStore : Reachable newYearStore := by
  have h1 := Reachable.post Store.empty "U1" (20088 * msPerDay + 1000) runBody Reachable.empty
  rw [routerPost_runBody_at] at h1
  have h2 := Reachable.post _ "U1" (20089 * msPerDay + 1000) runBody h1
  rw [routerPost_runBody_at] at h2
  exact h2

/-- C13, as stated, fails: owner `U1` has a run on Tuesday 2024-12-31 and a run
on Wednesday 2025-01-01, both of ISO week 1 of ISO year 2025 and both matched
by the period of 30 days. The weekly progress holds two buckets, `(2024, 52)`
and `(2025, 0)`, because the pipeline groups by `$year` and `$week` (calendar
year, weeks from Sunday, week 0 before the first Sunday), not by the ISO
year and week. -/
theorem C13_counterexample :
    Reachable newYearStore
    ∧ entriesInRange newYearStore "U1"
        (20089 * msPerDay + 2000 - (none : Option Int).getD 30 * 24 * 60 * 60 * 1000)
        (20089 * msPerDay + 2000) = newYearStore.docs
    ∧ (newYearStore.docs.map (fun p => isoWeekId p.date)).dedup = [(2025, 1)]
    ∧ ((routerGetStats newYearStore "U1" (20089 * msPerDay + 2000) none).weeklyProgress.map
        (fun b => b.id)) = [(2024, 52), (2025, 0)] := by
  refine ⟨reachable_newYearStore, by decide, by decide, by decide⟩

theorem sum_map_one (l : List Progress) : (l.map (fun _ => 1)).sum = l.length := by
  induction l with
  | nil => rfl
  | cons p ps ih =>
    rw [List.map_cons, List.sum_cons, ih, List.length_cons, Nat.add_comm]

theorem count_map_weekId (l : List Progress) (key : Int × Int) :
    List.countP (fun k => decide (k = key)) (l.map (fun p => weekId p.date))
      = (l.filter (fun p => weekId p.date == key)).length := by
  rw [List.countP_map, List.countP_eq_length_filter]
  congr 1
  apply List.filter_congr
  intro p _
  rw [Bool.eq_iff_iff]
  simp

theorem map_id_groupByWeek (matched : List Progress) :
    (groupByWeek matched).map (fun b => b.id)
      = (matched.map (fun p => weekId p.date)).dedup := by
  unfold groupByWeek
  rw [List.map_map]
  exact List.map_id' _

theorem sum_activityCount_groupByWeek (matched : List Progress) :
    ((groupByWeek matched).map (fun b => b.activityCount)).sum = matched.length := by
  unfold groupByWeek
  rw [List.map_map]
  have hfun : ((fun b : WeekBucket => b.activityCount) ∘ fun key =>
      ({ id := key
         totalDistance :=
          ((matched.filter (fun p => weekId p.date == key)).map (fun p => p.distance)).sum
         totalDuration :=
          ((matched.filter (fun p => weekId p.date == key)).map (fun p => p.duration)).sum
         activityCount :=
          ((matched.filter (fun p => weekId p.date == key)).map (fun _ => 1)).sum }
        : WeekBucket))
      = fun key =>
        List.countP (fun k => decide (k = key)) (matched.map (fun p => weekId p.date)) := by
    funext key
    simp only [Function.comp, sum_map_one, count_map_weekId]
  rw [hfun]
  have h := List.sum_map_count_dedup_eq_length (matched.map (fun p => weekId p.date))
  rw [List.length_map] at h
  exact h

theorem sortWeeks_perm (groups : List WeekBucket) : (sortWeeks groups).Perm groups :=
  List.perm_insertionSort _ _

theorem sortWeeks_sorted (groups : List WeekBucket) :
    (sortWeeks groups).Sorted (fun a b => weekIdLe a.id b.id) := by
  haveI : IsTotal WeekBucket (fun a b => weekIdLe a.id b.id) :=
    ⟨fun a b => by
      unfold weekIdLe
      omega⟩
  haveI : IsTrans WeekBucket (fun a b => weekIdLe a.id b.id) :=
    ⟨fun a b c hab hbc => by
      unfold weekIdLe at hab hbc ⊢
      omega⟩
  exact List.sorted_insertionSort _ _

theorem weeklyProgress_eq (st : Store) (uid : String) (now : Int) (period : Option Int) :
    (routerGetStats st uid now period).weeklyProgress
      = sortWeeks (groupByWeek
          (entriesInRange st uid (now - period.getD 30 * 24 * 60 * 60 * 1000) now)) := by
  unfold routerGetStats
  dsimp only
  rw [matchRange_eq_entriesInRange]

theorem filter_weekId_beq (l : List Progress) (key : Int × Int) :
    l.filter (fun p => weekId p.date == key) = l.filter (fun p => decide (weekId p.date = key)) := by
  apply List.filter_congr
  intro p _
  rw [Bool.eq_iff_iff]
  simp

theorem totalActivities_eq (st : Store) (uid : String) (now : Int) (period : Option Int) :
    (routerGetStats st uid now period).totalStats.totalActivities
      = (entriesInRange st uid (now - period.getD 30 * 24 * 60 * 60 * 1000) now).length := by
  by_cases h : entriesInRange st uid (now - period.getD 30 * 24 * 60 * 60 * 1000) now = []
  · rw [(routerGetStats_totalStats st uid now period).1 h, h]
    rfl
  · rw [(routerGetStats_totalStats st uid now period).2 h]
    exact sum_map_one _

/-- C13 (amended): the weekly progress of the period statistics has exactly one
bucket per distinct pair (`$year`, `$week`) of the matched entries' dates, that
is calendar year and week of the year with weeks beginning on Sunday; the
`totalDistance`, `totalDuration` and `activityCount` of a bucket are the sum of
distance, the sum of duration and the number of the matched entries whose date
has the bucket's pair; the buckets are sorted strictly ascending by (year,
week); and the `activityCount` values sum to `totalActivities`, the number of
matched entries. -/
theorem C13_weekly_trend (st : Store) (uid : String) (now : Int) (period : Option Int) :
    ((routerGetStats st uid now period).weeklyProgress.map (fun b => b.id)).Sorted
        (fun a b => a.1 < b.1 ∨ (a.1 = b.1 ∧ a.2 < b.2))
    ∧ (∀ key : Int × Int,
        key ∈ (routerGetStats st uid now period).weeklyProgress.map (fun b => b.id)
          ↔ ∃ p ∈ entriesInRange st uid (now - period.getD 30 * 24 * 60 * 60 * 1000) now,
              weekId p.date = key)
    ∧ (∀ b ∈ (routerGetStats st uid now period).weeklyProgress,
        b.totalDistance
            = (((entriesInRange st uid (now - period.getD 30 * 24 * 60 * 60 * 1000) now).filter
                (fun p => weekId p.date = b.id)).map (fun p => p.distance)).sum
          ∧ b.totalDuration
            = (((entriesInRange st uid (now - period.getD 30 * 24 * 60 * 60 * 1000) now).filter
                (fun p => weekId p.date = b.id)).map (fun p => p.duration)).sum
          ∧ b.activityCount
            = ((entriesInRange st uid (now - period.getD 30 * 24 * 60 * 60 * 1000) now).filter
                (fun p => weekId p.date = b.id)).length)
    ∧ ((routerGetStats st uid now period).weeklyProgress.map (fun b => b.activityCount)).sum
        = (routerGetStats st uid now period).totalStats.totalActivities
    ∧ (routerGetStats st uid now period).totalStats.totalActivities
        = (entriesInRange st uid (now - period.getD 30 * 24 * 60 * 60 * 1000) now).length := by
  rw [weeklyProgress_eq, totalActivities_eq]
  have hperm := sortWeeks_perm (groupByWeek
    (entriesInRange st uid (now - period.getD 30 * 24 * 60 * 60 * 1000) now))
  have hids := (hperm.map (fun b => b.id))
  rw [map_id_groupByWeek] at hids
  refine ⟨?_, ?_, ?_, ?_, rfl⟩
  · have hle := (List.pairwise_map).2 (sortWeeks_sorted (groupByWeek
      (entriesInRange st uid (now - period.getD 30 * 24 * 60 * 60 * 1000) now)))
    have hne : ((sortWeeks (groupByWeek
        (entriesInRange st uid (now - period.getD 30 * 24 * 60 * 60 * 1000) now))).map
        (fun b => b.id)).Nodup := hids.nodup_iff.2 (List.nodup_dedup _)
    refine (List.Pairwise.and hle hne).imp ?_
    rintro a b ⟨hab, hneq⟩
    unfold weekIdLe at hab
    rcases hab with h | ⟨h1, h2⟩
    · exact Or.inl h
    · refine Or.inr ⟨h1, lt_of_le_of_ne h2 ?_⟩
      intro h3
      exact hneq (Prod.ext h1 h3)
  · intro key
    rw [hids.mem_iff, List.mem_dedup, List.mem_map]
  · intro b hb
    have hb2 := hperm.mem_iff.1 hb
    unfold groupByWeek at hb2
    rw [List.mem_map] at hb2
    obtain ⟨key, -, rfl⟩ := hb2
    refine ⟨?_, ?_, ?_⟩
    · rw [filter_weekId_beq]
    · rw [filter_weekId_beq]
    · rw [filter_weekId_beq, sum_map_one]
  · rw [(hperm.map (fun b => b.activityCount)).sum_eq, sum_activityCount_groupByWeek]

end Marathon
